import Mathlib

/-!
A verification development for the match-3 board engine of the
anniversary-candy-crush repository.  The engine's data model and
operations (`match.js`, `grid.js`, and the matching portions of
`game.js`) are shallowly embedded as executable Lean definitions:

* a board is a list of rows of cells (`GridT`), a cell is `Option Tile`
  (JS `null`/`undefined` both collapse to `none`, which is exactly how
  the source treats them: both are falsy and `getTileType` returns
  `null` for both);
* the row/column run scanners of `findAllMatches` are embedded as one
  generic line scanner (`scanGo`) instantiated with a row accessor and
  a column accessor, mirroring the two structurally identical loops of
  the source;
* the stateful parts (swap probing, the cascade loop, refills and the
  reshuffle loop) are embedded by explicit state passing; randomness
  (`Math.random()` uses) is modelled by explicit supply functions with
  a threaded counter, and the unbounded `while`/recursion of the
  cascade and reshuffle loops by an explicit fuel parameter.

Theorems about these definitions settle the specification claims about
run-length-to-special-spawn mapping, swap non-mutation, generation
without starting matches, combination chaining, move accounting,
clear-set cardinalities, reshuffle postconditions, refill bias order
and combination symmetry.
-/

/-- The five base tile kinds of `Grid.tileTypes`. -/
inductive Kind
  | heart
  | diamond
  | rose
  | star
  | ring
deriving DecidableEq

instance : Fintype Kind where
  elems := {Kind.heart, Kind.diamond, Kind.rose, Kind.star, Kind.ring}
  complete := by intro x; cases x <;> simp

/-- The three special-candy kinds: `striped-h` (clears its row),
`striped-v` (clears its column), `wrapped` (clears a 3x3 area). -/
inductive SpecialKind
  | stripedH
  | stripedV
  | wrapped
deriving DecidableEq

/-- One tile data object (`Grid.data[row][col]` when non-null).
`type` is `Option Kind` because the JS field can in principle hold
`null`; `special` is `null` or a special kind; `isMemory`/`memoryId`
carry the memory-tile tag. -/
structure Tile where
  type : Option Kind
  special : Option SpecialKind
  isMemory : Bool
  memoryId : Option Nat
deriving DecidableEq

/-- A board cell: `none` models both an empty slot (`null`) and a read
outside the array (`undefined`); the source treats the two identically
everywhere (both falsy, `getTileType` yields `null` on both). -/
abbrev Cell := Option Tile

/-- The grid: a list of rows of cells, as the source's 2D array. -/
abbrev GridT := List (List Cell)

/-- A board position `{row, col}`. -/
structure Pos where
  row : Nat
  col : Nat
deriving DecidableEq

/-- Bounds-free cell read `grid[r]?.[c]`: missing row, missing column
or a stored `null` all give `none`. -/
def getCell (g : GridT) (r c : Nat) : Cell :=
  (g[r]?.bind fun rowL => rowL[c]?).join

/-- Cell write `grid[r][c] = v`; out-of-bounds writes leave the grid
unchanged (the source never performs them). -/
def setCell (g : GridT) (r c : Nat) (v : Cell) : GridT :=
  match g[r]? with
  | some rowL => g.set r (rowL.set c v)
  | none => g

/-- `MatchDetector.getTileType`: the base kind of a cell, `none` for an
empty cell or a tile with a null type. -/
def getTileType (c : Cell) : Option Kind :=
  c.bind fun t => t.type

/-- `MatchDetector.isSpecialCandy`: the special kind carried by a cell,
if any. -/
def isSpecialCandy (c : Cell) : Option SpecialKind :=
  c.bind fun t => t.special

/-- A special-candy spawn request pushed by `findAllMatches`
(`{row, col, type, candyType}`). -/
structure Spawn where
  pos : Pos
  stype : SpecialKind
  candyType : Option Kind
deriving DecidableEq

/-- The clear/removal animations attached to positions by the special
activation and combination routines; `matched` is the default used by
`removeMatches` for plain match positions. -/
inductive Anim
  | matched
  | clearingRow
  | clearingColumn
  | exploding
  | clearingCross
  | clearingGiantCross
  | megaExploding
deriving DecidableEq

/-- A position-to-clear with its animation tag
(`{row, col, animation}`). -/
structure CPos where
  row : Nat
  col : Nat
  anim : Anim
deriving DecidableEq

/-! ### The generic line scanner of `findAllMatches`

The source contains two structurally identical loops, one over each
row (left to right) and one over each column (top to bottom).  Both
are embeddings of one generic scanner over a line of cells; a
`LineCtx` packages the line accessor, the board size, the map from a
line index to a board position, and the striped kind spawned by a
run of length 4 on this line. -/

structure LineCtx where
  cells : Nat → Cell
  size : Nat
  mkPos : Nat → Pos
  special4 : SpecialKind

/-- Base type of the cell at line index `i`. -/
def tTypeAt (L : LineCtx) (i : Nat) : Option Kind :=
  getTileType (L.cells i)

/-- The run-extension condition of the scan loop at index `i ≥ 1`:
`cells[i] && cells[i-1] && getTileType(cells[i]) === getTileType(cells[i-1])`. -/
def HExt (L : LineCtx) (i : Nat) : Prop :=
  (L.cells i).isSome = true ∧ (L.cells (i - 1)).isSome = true ∧
    tTypeAt L i = tTypeAt L (i - 1)

instance (L : LineCtx) (i : Nat) : Decidable (HExt L i) := by
  unfold HExt; infer_instance

/-- Flushing a finished run `[ms, ms+ml)`: positions are recorded when
`ml ≥ 3`; a run of length 4 spawns the line's striped special and a
run of length ≥ 5 spawns a wrapped special, both at
`ms + ml / 2` with the base kind of the run's first cell. -/
def flushRun (L : LineCtx) (ms ml : Nat) : List Pos × List Spawn :=
  if 3 ≤ ml then
    ((List.range ml).map fun i => L.mkPos (ms + i),
     if ml = 4 then [⟨L.mkPos (ms + ml / 2), L.special4, tTypeAt L ms⟩]
     else if 5 ≤ ml then [⟨L.mkPos (ms + ml / 2), SpecialKind.wrapped, tTypeAt L ms⟩]
     else [])
  else ([], [])

/-- The scan loop over one line: `col` runs from 1 to `size`
inclusive (hence `fuel = size` at the initial call), `ms`/`ml` are the
source's `matchStart`/`matchLength`. -/
def scanGo (L : LineCtx) : Nat → Nat → Nat → Nat → List Pos × List Spawn
  | 0, _, _, _ => ([], [])
  | fuel + 1, col, ms, ml =>
    if col < L.size ∧ HExt L col then
      scanGo L fuel (col + 1) ms (ml + 1)
    else
      let fl := flushRun L ms ml
      let rest := scanGo L fuel (col + 1) col 1
      (fl.1 ++ rest.1, fl.2 ++ rest.2)

/-- One full line scan (`matchStart = 0`, `matchLength = 1`, `col`
from 1). -/
def scanLine (L : LineCtx) : List Pos × List Spawn :=
  scanGo L L.size 1 0 1

/-- The horizontal line context of row `r`. -/
def hLine (g : GridT) (r : Nat) : LineCtx :=
  ⟨fun c => getCell g r c, g.length, fun i => ⟨r, i⟩, SpecialKind.stripedH⟩

/-- The vertical line context of column `c`. -/
def vLine (g : GridT) (c : Nat) : LineCtx :=
  ⟨fun r => getCell g r c, g.length, fun i => ⟨i, c⟩, SpecialKind.stripedV⟩

/-- All positions recorded by the horizontal pass of `findAllMatches`,
in scan order. -/
def hMatches (g : GridT) : List Pos :=
  ((List.range g.length).map fun r => (scanLine (hLine g r)).1).flatten

/-- All spawn requests pushed by the horizontal pass. -/
def hSpawns (g : GridT) : List Spawn :=
  ((List.range g.length).map fun r => (scanLine (hLine g r)).2).flatten

/-- All positions recorded by the vertical pass. -/
def vMatches (g : GridT) : List Pos :=
  ((List.range g.length).map fun c => (scanLine (vLine g c)).1).flatten

/-- All spawn requests pushed by the vertical pass. -/
def vSpawns (g : GridT) : List Spawn :=
  ((List.range g.length).map fun c => (scanLine (vLine g c)).2).flatten

/-- Insertion-ordered deduplication, the behaviour of the JS `Set` of
`"row,col"` keys: keeps the first occurrence of each position. -/
def dedupPosGo (seen : List Pos) : List Pos → List Pos
  | [] => []
  | p :: ps =>
    if p ∈ seen then dedupPosGo seen ps
    else p :: dedupPosGo (p :: seen) ps

/-- `matchedPositions` as a deduplicated list in insertion order. -/
def dedupPos (l : List Pos) : List Pos :=
  dedupPosGo [] l

/-- Count of consecutive same-kind cells at indices `col-1, col-2, …`
(the backward half of the counting loops of `findLTShapes` and
`hasMatchAt`). -/
def leftRun (cells : Nat → Cell) (k : Kind) : Nat → Nat
  | 0 => 0
  | c + 1 => if getTileType (cells c) = some k then leftRun cells k c + 1 else 0

/-- Count of consecutive same-kind cells at indices `col+1, col+2, …`,
stopping at the board edge; `fuel = size - (col+1)` bounds the walk
exactly as the `c < size` loop condition does. -/
def rightRunGo (cells : Nat → Cell) (k : Kind) : Nat → Nat → Nat
  | _, 0 => 0
  | c, fuel + 1 =>
    if getTileType (cells (c + 1)) = some k then rightRunGo cells k (c + 1) fuel + 1
    else 0

/-- One iteration of the `findLTShapes` loop: skip positions already
`checked`, otherwise count the contiguous same-kind run through the
position horizontally and vertically; an intersection of two runs of
length ≥ 3 spawns one wrapped special there and marks the position
checked. -/
def ltStep (g : GridT) (st : List Pos × List Spawn) (pos : Pos) :
    List Pos × List Spawn :=
  if pos ∈ st.1 then st
  else
    match getTileType (getCell g pos.row pos.col) with
    | none => st
    | some k =>
      let hCount := 1 + leftRun (fun c => getCell g pos.row c) k pos.col
          + rightRunGo (fun c => getCell g pos.row c) k pos.col (g.length - (pos.col + 1))
      let vCount := 1 + leftRun (fun r => getCell g r pos.col) k pos.row
          + rightRunGo (fun r => getCell g r pos.col) k pos.row (g.length - (pos.row + 1))
      if 3 ≤ hCount ∧ 3 ≤ vCount then
        (st.1 ++ [pos], st.2 ++ [⟨pos, SpecialKind.wrapped, some k⟩])
      else st

/-- `MatchDetector.findLTShapes`: the loop over the matched positions,
with the `checked` set of the source threaded through the fold. -/
def findLTShapes (g : GridT) (matched : List Pos) : List Spawn :=
  (matched.foldl (ltStep g) ([], [])).2

/-- The deduplicated match set of one full scan, horizontal positions
first, in insertion order (the JS `Set` converted by `Array.from`). -/
def matchedPositions (g : GridT) : List Pos :=
  dedupPos (hMatches g ++ vMatches g)

/-- `MatchDetector.findAllMatches`: the match set together with the
spawn-request list (horizontal runs, then vertical runs, then
L/T-intersections). -/
def findAllMatches (g : GridT) : List Pos × List Spawn :=
  (matchedPositions g,
   hSpawns g ++ vSpawns g ++ findLTShapes g (matchedPositions g))

/-- `MatchDetector.hasMatchAt`: is the given position inside a
horizontal or vertical contiguous run of length ≥ 3 of its own base
kind? -/
def hasMatchAt (g : GridT) (pos : Pos) : Bool :=
  match getTileType (getCell g pos.row pos.col) with
  | none => false
  | some k =>
    let hCount := 1 + leftRun (fun c => getCell g pos.row c) k pos.col
        + rightRunGo (fun c => getCell g pos.row c) k pos.col (g.length - (pos.col + 1))
    if 3 ≤ hCount then true
    else
      let vCount := 1 + leftRun (fun r => getCell g r pos.col) k pos.row
          + rightRunGo (fun r => getCell g r pos.col) k pos.row (g.length - (pos.row + 1))
      decide (3 ≤ vCount)

/-- The four combination classifications of `getCombinationType`. -/
inductive CombinationType
  | stripedStriped
  | stripedWrapped
  | wrappedWrapped
  | unknown
deriving DecidableEq

def isStriped (t : SpecialKind) : Bool :=
  t == SpecialKind.stripedH || t == SpecialKind.stripedV

def isWrapped (t : SpecialKind) : Bool :=
  t == SpecialKind.wrapped

/-- `MatchDetector.getCombinationType`. -/
def getCombinationType (t1 t2 : SpecialKind) : CombinationType :=
  if isStriped t1 && isStriped t2 then CombinationType.stripedStriped
  else if (isStriped t1 && isWrapped t2) || (isWrapped t1 && isStriped t2) then
    CombinationType.stripedWrapped
  else if isWrapped t1 && isWrapped t2 then CombinationType.wrappedWrapped
  else CombinationType.unknown

/-- The combination record returned by `isSpecialCombination`. -/
structure Combination where
  pos1 : Pos
  pos2 : Pos
  type1 : SpecialKind
  type2 : SpecialKind
  combinationType : CombinationType
deriving DecidableEq

/-- `MatchDetector.isSpecialCombination`: a combination exists exactly
when both positions hold special candies. -/
def isSpecialCombination (g : GridT) (p1 p2 : Pos) : Option Combination :=
  match isSpecialCandy (getCell g p1.row p1.col),
        isSpecialCandy (getCell g p2.row p2.col) with
  | some s1, some s2 => some ⟨p1, p2, s1, s2, getCombinationType s1 s2⟩
  | _, _ => none

/-- `MatchDetector.wouldMatch`, with the source's in-place
swap / check / swap-back sequence made explicit: the result is the
boolean answer together with the grid as left behind by the call. -/
def wouldMatch (g : GridT) (p1 p2 : Pos) : Bool × GridT :=
  if (isSpecialCombination g p1 p2).isSome then (true, g)
  else
    let temp := getCell g p1.row p1.col
    let g1 := setCell g p1.row p1.col (getCell g p2.row p2.col)
    let g2 := setCell g1 p2.row p2.col temp
    let res := hasMatchAt g2 p1 || hasMatchAt g2 p2
    let g3 := setCell g2 p2.row p2.col (getCell g2 p1.row p1.col)
    let g4 := setCell g3 p1.row p1.col temp
    (res, g4)

/-- `MatchDetector.areAdjacent`. -/
def areAdjacent (p1 p2 : Pos) : Bool :=
  let rowDiff := ((p1.row : Int) - p2.row).natAbs
  let colDiff := ((p1.col : Int) - p2.col).natAbs
  (rowDiff == 1 && colDiff == 0) || (rowDiff == 0 && colDiff == 1)

/-- `MatchDetector.findPossibleMatch`: scan positions row-major,
probing the right then the down neighbour; first success wins. -/
def findPossibleMatch (g : GridT) : Option (Pos × Pos) :=
  (((List.range g.length).flatMap fun row => (List.range g.length).flatMap fun col =>
    (if col + 1 < g.length ∧ (wouldMatch g ⟨row, col⟩ ⟨row, col + 1⟩).1 = true then
      [((⟨row, col⟩ : Pos), (⟨row, col + 1⟩ : Pos))]
    else []) ++
    (if row + 1 < g.length ∧ (wouldMatch g ⟨row, col⟩ ⟨row + 1, col⟩).1 = true then
      [((⟨row, col⟩ : Pos), (⟨row + 1, col⟩ : Pos))]
    else [])).head?)

def intRange3 : List Int := [-1, 0, 1]

def intRange5 : List Int := [-2, -1, 0, 1, 2]

/-- `MatchDetector.getSpecialClearPositions`: full row for `striped-h`,
full column for `striped-v`, bounds-clipped 3x3 block for `wrapped`. -/
def getSpecialClearPositions (g : GridT) (pos : Pos) (specialType : SpecialKind) :
    List CPos :=
  match specialType with
  | SpecialKind.stripedH =>
    (List.range g.length).map fun col => ⟨pos.row, col, Anim.clearingRow⟩
  | SpecialKind.stripedV =>
    (List.range g.length).map fun row => ⟨row, pos.col, Anim.clearingColumn⟩
  | SpecialKind.wrapped =>
    intRange3.flatMap fun dr => intRange3.flatMap fun dc =>
      let r := (pos.row : Int) + dr
      let c := (pos.col : Int) + dc
      if 0 ≤ r ∧ r < (g.length : Int) ∧ 0 ≤ c ∧ c < (g.length : Int) then
        [⟨r.toNat, c.toNat, Anim.exploding⟩]
      else []

/-- The `addPos` helper of `getSpecialCombinationClearPositions`:
append a bounds-checked position unless an equal position was already
collected. -/
def addPos (size : Nat) (st : List CPos) (r c : Int) (a : Anim) : List CPos :=
  if 0 ≤ r ∧ r < (size : Int) ∧ 0 ≤ c ∧ c < (size : Int) then
    if st.any fun q => q.row = r.toNat ∧ q.col = c.toNat then st
    else st ++ [⟨r.toNat, c.toNat, a⟩]
  else st

/-- `getSpecialCombinationClearPositions` on an explicit board size
(the source only reads `grid.length`). -/
def specialComboClearSize (size : Nat) (comb : Combination) : List CPos :=
  match comb.combinationType with
  | CombinationType.stripedStriped =>
    let st := (List.range size).foldl
      (fun st c => addPos size st (comb.pos1.row : Int) (c : Int) Anim.clearingCross) []
    let st := (List.range size).foldl
      (fun st r => addPos size st (r : Int) (comb.pos1.col : Int) Anim.clearingCross) st
    let st := (List.range size).foldl
      (fun st c => addPos size st (comb.pos2.row : Int) (c : Int) Anim.clearingCross) st
    (List.range size).foldl
      (fun st r => addPos size st (r : Int) (comb.pos2.col : Int) Anim.clearingCross) st
  | CombinationType.stripedWrapped =>
    let st := intRange3.foldl (fun st dr =>
      (List.range size).foldl
        (fun st c => addPos size st ((comb.pos1.row : Int) + dr) (c : Int)
          Anim.clearingGiantCross) st) []
    intRange3.foldl (fun st dc =>
      (List.range size).foldl
        (fun st r => addPos size st (r : Int) ((comb.pos1.col : Int) + dc)
          Anim.clearingGiantCross) st) st
  | CombinationType.wrappedWrapped =>
    intRange5.foldl (fun st dr =>
      intRange5.foldl (fun st dc =>
        addPos size st ((comb.pos1.row : Int) + dr) ((comb.pos1.col : Int) + dc)
          Anim.megaExploding) st) []
  | CombinationType.unknown => []

/-- `MatchDetector.getSpecialCombinationClearPositions`. -/
def getSpecialCombinationClearPositions (g : GridT) (comb : Combination) : List CPos :=
  specialComboClearSize g.length comb

/-! ### `grid.js`: generation, gravity, refill, shuffle -/

/-- `Grid.wouldCreateInitialMatch`: would placing `k` at `(row, col)`
complete a horizontal run of 3 with the two cells to its left, or a
vertical run of 3 with the two cells above it? -/
def wouldCreateInitialMatch (g : GridT) (row col : Nat) (k : Kind) : Bool :=
  (decide (2 ≤ col) && decide (getTileType (getCell g row (col - 1)) = some k)
    && decide (getTileType (getCell g row (col - 2)) = some k)) ||
  (decide (2 ≤ row) && decide (getTileType (getCell g (row - 1) col) = some k)
    && decide (getTileType (getCell g (row - 2) col) = some k))

/-- The `do { type = getRandomType(); attempts++ } while (attempts < 50
&& wouldCreateInitialMatch(...))` loop of `Grid.generate`: `sup` is the
random-kind supply indexed by a draw counter, `budget` the remaining
attempts (50 at the first draw); the final candidate is accepted
unconditionally.  Returns the accepted kind and the next counter. -/
def pickTypeGo (g : GridT) (row col : Nat) (sup : Nat → Kind) :
    Nat → Nat → Kind × Nat
  | counter, 0 => (sup counter, counter + 1)
  | counter, budget + 1 =>
    let k := sup counter
    if budget = 0 then (k, counter + 1)
    else if wouldCreateInitialMatch g row col k then
      pickTypeGo g row col sup (counter + 1) budget
    else (k, counter + 1)

/-- `Grid.generate` (type assignment only; the memory-tag bookkeeping
and DOM rendering do not affect the chosen kinds): cells are filled
top-to-bottom, left-to-right, each kind drawn through the retry loop
against the already-placed cells. -/
def generate (size : Nat) (sup : Nat → Kind) : GridT :=
  (((List.range size).flatMap fun r => (List.range size).map fun c => (r, c)).foldl
    (fun (st : GridT × Nat) rc =>
      let pick := pickTypeGo st.1 rc.1 rc.2 sup st.2 50
      (setCell st.1 rc.1 rc.2 (some ⟨some pick.1, none, false, none⟩), pick.2))
    (List.replicate size (List.replicate size (none : Cell)), 0)).1

/-- One column after `Grid.applyGravity`'s bottom-up compaction: the
non-empty cells keep their relative order and sink to the bottom,
empties bubble to the top (this is the net effect of the in-place
`emptyRow` loop of the source). -/
def gravityCol (col : List Cell) : List Cell :=
  let tiles := col.filterMap id
  List.replicate (col.length - tiles.length) (none : Cell) ++ tiles.map some

/-- Column `c` of the grid, top to bottom. -/
def getColumn (g : GridT) (c : Nat) : List Cell :=
  g.map fun rowL => rowL[c]?.join

/-- `Grid.applyGravity` on the whole grid. -/
def applyGravity (g : GridT) : GridT :=
  (List.range g.length).map fun r =>
    (List.range g.length).map fun c => ((gravityCol (getColumn g c))[r]?).join

/-- `Grid.getHelpfulTypeForPosition`: scan the Chebyshev-radius-2
square around `(row, col)` in the source's loop order (`dr` outer from
-2 to 2, `dc` inner from -2 to 2), return the type of the first
memory-tagged tile found. -/
def getHelpfulTypeForPosition (g : GridT) (row col : Nat) : Option Kind :=
  ((intRange5.flatMap fun dr => intRange5.flatMap fun dc =>
    let nr := (row : Int) + dr
    let nc := (col : Int) + dc
    if 0 ≤ nr ∧ nr < (g.length : Int) ∧ 0 ≤ nc ∧ nc < (g.length : Int) then
      match getCell g nr.toNat nc.toNat with
      | some t => if t.isMemory then [t] else []
      | none => []
    else []).head?).bind fun t => t.type

/-- The per-cell kind choice of `Grid.spawnNewTiles`: `k0` is the
uniform draw `getRandomType()`, `coin` the outcome of
`Math.random() < 0.4`; on the biased path a helpful kind overrides the
draw when one exists. -/
def spawnKindAt (g : GridT) (row col : Nat) (k0 : Kind) (coin : Bool) : Kind :=
  if coin then
    match getHelpfulTypeForPosition g row col with
    | some hk => hk
    | none => k0
  else k0

/-- `Grid.spawnNewTiles`: fill every empty cell, scanning column-major
(outer loop over columns, inner over rows top to bottom); each filled
cell consumes one supply draw (a kind and a bias coin). -/
def spawnNewTiles (sup : Nat → Kind × Bool) (g0 : GridT) (c0 : Nat) : GridT × Nat :=
  (List.range g0.length).foldl (fun st col =>
    (List.range g0.length).foldl (fun (st : GridT × Nat) row =>
      match getCell st.1 row col with
      | some _ => st
      | none =>
        let draw := sup st.2
        let k := spawnKindAt st.1 row col draw.1 draw.2
        (setCell st.1 row col (some ⟨some k, none, false, none⟩), st.2 + 1)) st)
    (g0, c0)

/-- `Grid.createSpecialCandy`. -/
def createSpecialCandy (g : GridT) (row col : Nat) (specialType : SpecialKind)
    (candyType : Option Kind) : GridT :=
  setCell g row col (some ⟨candyType, some specialType, false, none⟩)

/-- `Grid.swapTiles` (data part): exchange the two cells. -/
def swapCells (g : GridT) (p1 p2 : Pos) : GridT :=
  let temp := getCell g p1.row p1.col
  let g1 := setCell g p1.row p1.col (getCell g p2.row p2.col)
  setCell g1 p2.row p2.col temp

/-- `Grid.removeMatches` (data part): record the memory ids of tagged
tiles among the cleared positions (in clearance order), then null the
cells. -/
def removeMatches (g : GridT) (ms : List CPos) : GridT × List Nat :=
  (ms.foldl (fun g m => setCell g m.row m.col none) g,
   ms.filterMap fun m =>
     match getCell g m.row m.col with
     | some t => if t.isMemory then t.memoryId else none
     | none => none)

/-- The row-major collection of all non-null tiles, as `Grid.shuffle`
gathers them. -/
def tilesCollect (g : GridT) : List Tile :=
  g.flatten.filterMap id

/-- Simultaneous-assignment swap of two list entries
(`[l[i], l[j]] = [l[j], l[i]]`). -/
def swapList (l : List Tile) (i j : Nat) : List Tile :=
  match l[i]?, l[j]? with
  | some a, some b => (l.set i b).set j a
  | _, _ => l

/-- The Fisher-Yates loop of `Grid.shuffle`: `i` runs from
`length - 1` down to 1, each step swapping index `i` with a uniformly
drawn `j ≤ i` (modelled as `js counter % (i + 1)`). -/
def fisherYatesGo (js : Nat → Nat) : Nat → List Tile → Nat → List Tile × Nat
  | 0, l, c => (l, c)
  | i + 1, l, c => fisherYatesGo js i (swapList l (i + 1) (js c % (i + 2))) (c + 1)

/-- Reassignment of the shuffled tile list to the grid, row-major
(`this.data[row][col] = allTiles[index++]`); an exhausted list yields
`undefined`, i.e. `none`. -/
def regrid (size : Nat) (l : List Tile) : GridT :=
  (List.range size).map fun r => (List.range size).map fun c => l[r * size + c]?

/-- One pass of `Grid.shuffle`: collect, Fisher-Yates, reassign. -/
def shuffleOnce (js : Nat → Nat) (g : GridT) (c : Nat) : GridT × Nat :=
  let allTiles := tilesCollect g
  let fy := fisherYatesGo js (allTiles.length - 1) allTiles c
  (regrid g.length fy.1, fy.2)

/-- `Grid.shuffle` with its recursive retry: repeat while the fresh
board still has an immediate match or has no possible move.  The
unbounded recursion of the source is bounded by `fuel`; `none` means
the bound was exhausted before a good permutation appeared. -/
def shuffleGo (js : Nat → Nat) : Nat → GridT → Nat → Option (GridT × Nat)
  | 0, _, _ => none
  | fuel + 1, g, c =>
    if (findAllMatches (shuffleOnce js g c).1).1 ≠ [] ∨
        findPossibleMatch (shuffleOnce js g c).1 = none then
      shuffleGo js fuel (shuffleOnce js g c).1 (shuffleOnce js g c).2
    else some (shuffleOnce js g c)

/-! ### `game.js`: the turn engine -/

/-- The engine state owned by the `Game` controller that the claims
are about: the grid plus the moves-remaining counter. -/
structure GameState where
  grid : GridT
  moves : Int
deriving DecidableEq

/-- `Game.deduplicatePositions`: keep the first occurrence of each
`(row, col)` key. -/
def dedupPositionsGo (seen : List (Nat × Nat)) : List CPos → List CPos
  | [] => []
  | p :: ps =>
    if (p.row, p.col) ∈ seen then dedupPositionsGo seen ps
    else p :: dedupPositionsGo ((p.row, p.col) :: seen) ps

def dedupPositions (l : List CPos) : List CPos :=
  dedupPositionsGo [] l

/-- The special-creation step at the end of a `processMatches` pass:
each spawn request is honoured only if its position is not among the
cleared ones. -/
def createSpecialsStep (g : GridT) (cleared : List CPos) (specials : List Spawn) :
    GridT :=
  specials.foldl (fun g sp =>
    if cleared.any fun m => m.row = sp.pos.row ∧ m.col = sp.pos.col then g
    else createSpecialCandy g sp.pos.row sp.pos.col sp.stype sp.candyType) g

/-- The cascade loop `Game.processMatches`: scan, activate specials
sitting on matched positions, deduplicate, clear, create requested
specials at positions not cleared this pass, compact, refill, repeat
until a scan finds nothing (or the fuel bound is reached). -/
def processMatchesGo (sup : Nat → Kind × Bool) : Nat → GridT → Nat → GridT × Nat
  | 0, g, c => (g, c)
  | fuel + 1, g, c =>
    let found := findAllMatches g
    if found.1 = [] then (g, c)
    else
      let specialsToActivate := found.1.filterMap fun m =>
        match getCell g m.row m.col with
        | some t => t.special.map fun s => (m, s)
        | none => none
      let allMatches :=
        (found.1.map fun m => (⟨m.row, m.col, Anim.matched⟩ : CPos)) ++
        specialsToActivate.flatMap fun msp => getSpecialClearPositions g msp.1 msp.2
      let uniq := dedupPositions allMatches
      let g1 := (removeMatches g uniq).1
      let g2 := createSpecialsStep g1 uniq found.2
      let g3 := applyGravity g2
      let sp := spawnNewTiles sup g3 c
      processMatchesGo sup fuel sp.1 sp.2

/-- The chain pass of `Game.processSpecialCombination` for one cleared
position: the two swapped specials are skipped; any other cleared
position holding a special contributes that special's own clear
positions. -/
def chainExtras (g : GridT) (p1 p2 : Pos) (pos : CPos) : List CPos :=
  if (pos.row = p1.row ∧ pos.col = p1.col) ∨ (pos.row = p2.row ∧ pos.col = p2.col) then
    []
  else
    match getCell g pos.row pos.col with
    | some t =>
      match t.special with
      | some sp => getSpecialClearPositions g ⟨pos.row, pos.col⟩ sp
      | none => []
    | none => []

/-- The final deduplicated clear set of a special combination swap:
the combination's own positions followed by the one-level chain
extras. -/
def comboClearSet (g : GridT) (p1 p2 : Pos) (comb : Combination) : List CPos :=
  let clearPositions := getSpecialCombinationClearPositions g comb
  dedupPositions (clearPositions ++ clearPositions.flatMap (chainExtras g p1 p2))

/-- `Game.processSpecialCombination`: swap, consume one move, clear
the combination set with chains, compact, refill, then fall through to
the ordinary cascade loop. -/
def processSpecialCombination (sup : Nat → Kind × Bool) (fuel : Nat) (st : GameState)
    (p1 p2 : Pos) (comb : Combination) (c : Nat) : GameState × Nat :=
  let g1 := swapCells st.grid p1 p2
  let uniq := comboClearSet g1 p1 p2 comb
  let g2 := (removeMatches g1 uniq).1
  let g3 := applyGravity g2
  let sp := spawnNewTiles sup g3 c
  let pm := processMatchesGo sup fuel sp.1 sp.2
  (⟨pm.1, st.moves - 1⟩, pm.2)

/-- `Game.attemptSwap`: a special-special pair takes the combo path; a
swap that would not match is rejected with no board mutation and no
move consumed; otherwise the swap is performed, one move consumed, and
the cascade runs. -/
def attemptSwap (sup : Nat → Kind × Bool) (fuel : Nat) (st : GameState)
    (p1 p2 : Pos) (c : Nat) : GameState × Nat :=
  match isSpecialCombination st.grid p1 p2 with
  | some comb => processSpecialCombination sup fuel st p1 p2 comb c
  | none =>
    let wm := wouldMatch st.grid p1 p2
    if wm.1 then
      let g1 := swapCells wm.2 p1 p2
      let pm := processMatchesGo sup fuel g1 c
      (⟨pm.1, st.moves - 1⟩, pm.2)
    else
      (⟨wm.2, st.moves⟩, c)

/-- The reshuffle call site in `game.js` (`await Grid.shuffle()`):
the moves counter is not touched. -/
def shuffleBoard (js : Nat → Nat) (fuel : Nat) (st : GameState) (c : Nat) :
    Option (GameState × Nat) :=
  (shuffleGo js fuel st.grid c).map fun sh => (⟨sh.1, st.moves⟩, sh.2)

/-! ### Basic list and grid infrastructure lemmas -/

lemma getElem?_lt_length {α : Type} {l : List α} {n : Nat} {x : α}
    (h : l[n]? = some x) : n < l.length := by
  rcases List.getElem?_eq_some.mp h with ⟨h1, _⟩
  exact h1

lemma set_self_of_getElem? {α : Type} (l : List α) (r : Nat) (x : α)
    (h : l[r]? = some x) : l.set r x = l := by
  apply List.ext_getElem?
  intro i
  rw [List.getElem?_set]
  split
  · next hri =>
    subst hri
    split
    · exact h.symm
    · next hlt =>
      exfalso
      exact hlt (getElem?_lt_length h)
  · rfl

/-- In-bounds predicate for a position: its row exists and its column
index is within that row. -/
def InBounds (g : GridT) (p : Pos) : Prop :=
  p.row < g.length ∧ p.col < ((g[p.row]?).getD []).length

instance (g : GridT) (p : Pos) : Decidable (InBounds g p) := by
  unfold InBounds; infer_instance

lemma length_setCell (g : GridT) (r c : Nat) (v : Cell) :
    (setCell g r c v).length = g.length := by
  unfold setCell
  cases h : g[r]? <;> simp

lemma row_length_setCell (g : GridT) (r c : Nat) (v : Cell) (i : Nat) :
    ((setCell g r c v)[i]?).map List.length = (g[i]?).map List.length := by
  unfold setCell
  cases h : g[r]? with
  | none => rfl
  | some rowL =>
    by_cases hir : r = i
    · subst hir
      rw [List.getElem?_set_self', h]
      simp
    · rw [List.getElem?_set_ne hir]

lemma rowLen_setCell (g : GridT) (r c : Nat) (v : Cell) (i : Nat) :
    (((setCell g r c v)[i]?).getD []).length = ((g[i]?).getD []).length := by
  unfold setCell
  cases hr : g[r]? with
  | none => rfl
  | some rowL =>
    by_cases hir : r = i
    · subst hir
      rw [List.getElem?_set_self', hr]
      simp
    · rw [List.getElem?_set_ne hir]

lemma inBounds_setCell (g : GridT) (r c : Nat) (v : Cell) (p : Pos) :
    InBounds (setCell g r c v) p ↔ InBounds g p := by
  unfold InBounds
  rw [length_setCell, rowLen_setCell]

lemma getCell_setCell_ne (g : GridT) (r c : Nat) (v : Cell) (i j : Nat)
    (h : ¬(i = r ∧ j = c)) :
    getCell (setCell g r c v) i j = getCell g i j := by
  unfold setCell getCell
  cases hr : g[r]? with
  | none => rfl
  | some rowL =>
    by_cases hir : r = i
    · subst hir
      rw [List.getElem?_set_self', hr]
      simp only [Option.map_eq_map, Option.map_some, Option.some_bind,
        Function.const_apply]
      have hj : ¬ j = c := fun hc => h ⟨rfl, hc⟩
      rw [List.getElem?_set_ne (fun hcj => hj hcj.symm)]
    · rw [List.getElem?_set_ne hir]

lemma getCell_setCell_self (g : GridT) (r c : Nat) (v : Cell)
    (h : InBounds g ⟨r, c⟩) :
    getCell (setCell g r c v) r c = v := by
  obtain ⟨h1, h2⟩ := h
  unfold setCell getCell
  cases hr : g[r]? with
  | none =>
    exfalso
    rw [List.getElem?_eq_getElem h1] at hr
    exact absurd hr (by simp)
  | some rowL =>
    rw [List.getElem?_set_self', hr]
    simp only [Option.map_eq_map, Option.map_some, Option.some_bind,
      Function.const_apply]
    rw [hr] at h2
    simp only [Option.getD_some] at h2
    rw [List.getElem?_set]
    simp [List.length_set, h2]

lemma grid_ext (g g' : GridT) (hlen : g.length = g'.length)
    (hrow : ∀ i : Nat, (g[i]?).map List.length = (g'[i]?).map List.length)
    (hcell : ∀ i j : Nat, getCell g i j = getCell g' i j) : g = g' := by
  apply List.ext_getElem?
  intro i
  cases hi : g[i]? with
  | none =>
    have : g.length ≤ i := by
      by_contra hlt
      push_neg at hlt
      rw [List.getElem?_eq_getElem hlt] at hi
      exact absurd hi (by simp)
    rw [List.getElem?_eq_none (by omega)]
  | some rowL =>
    have hi' := hrow i
    rw [hi] at hi'
    cases hi2 : g'[i]? with
    | none => rw [hi2] at hi'; simp at hi'
    | some rowL' =>
      rw [hi2] at hi'
      simp at hi'
      congr 1
      apply List.ext_getElem?
      intro j
      by_cases hj : j < rowL.length
      · have hc := hcell i j
        unfold getCell at hc
        rw [hi, hi2] at hc
        simp only [Option.some_bind] at hc
        rw [List.getElem?_eq_getElem hj, List.getElem?_eq_getElem (by omega : j < rowL'.length)]
        rw [List.getElem?_eq_getElem hj, List.getElem?_eq_getElem (by omega : j < rowL'.length)] at hc
        simp only [Option.join, Option.some_bind, id] at hc
        rw [hc]
      · rw [List.getElem?_eq_none (by omega), List.getElem?_eq_none (by omega)]

lemma swapChain_restore (g : GridT) (p1 p2 : Pos)
    (h1 : InBounds g p1) (h2 : InBounds g p2) :
    setCell
      (setCell
        (setCell (setCell g p1.row p1.col (getCell g p2.row p2.col)) p2.row p2.col
          (getCell g p1.row p1.col))
        p2.row p2.col
        (getCell
          (setCell (setCell g p1.row p1.col (getCell g p2.row p2.col)) p2.row p2.col
            (getCell g p1.row p1.col))
          p1.row p1.col))
      p1.row p1.col (getCell g p1.row p1.col) = g := by
  have h1' : InBounds g ⟨p1.row, p1.col⟩ := h1
  have h2' : InBounds g ⟨p2.row, p2.col⟩ := h2
  apply grid_ext
  · simp [length_setCell]
  · intro i
    simp [row_length_setCell]
  · intro i j
    by_cases hp1 : i = p1.row ∧ j = p1.col
    · obtain ⟨hi, hj⟩ := hp1
      subst hi
      subst hj
      rw [getCell_setCell_self]
      rw [inBounds_setCell, inBounds_setCell, inBounds_setCell]
      exact h1'
    · by_cases hp2 : i = p2.row ∧ j = p2.col
      · obtain ⟨hi, hj⟩ := hp2
        subst hi
        subst hj
        rw [getCell_setCell_ne _ _ _ _ _ _ hp1]
        rw [getCell_setCell_self]
        · have hne : ¬(p1.row = p2.row ∧ p1.col = p2.col) := by
            intro hc
            exact hp1 ⟨hc.1.symm, hc.2.symm⟩
          rw [getCell_setCell_ne _ _ _ _ _ _ hne]
          rw [getCell_setCell_self _ _ _ _ h1']
        · rw [inBounds_setCell, inBounds_setCell]
          exact h2'
      · rw [getCell_setCell_ne _ _ _ _ _ _ hp1, getCell_setCell_ne _ _ _ _ _ _ hp2,
          getCell_setCell_ne _ _ _ _ _ _ hp2, getCell_setCell_ne _ _ _ _ _ _ hp1]

lemma wouldMatch_restores (g : GridT) (p1 p2 : Pos)
    (h1 : InBounds g p1) (h2 : InBounds g p2) :
    (wouldMatch g p1 p2).2 = g := by
  unfold wouldMatch
  by_cases hsc : (isSpecialCombination g p1 p2).isSome = true
  · simp [hsc]
  · simp only [hsc, if_false, Bool.false_eq_true]
    exact swapChain_restore g p1 p2 h1 h2

/-- A row of plain (non-special, non-memory) tiles, for concrete
boards. -/
def mkRow (ks : List Kind) : List Cell :=
  ks.map fun k => some ⟨some k, none, false, none⟩

/-- C3: for every board and every pair of in-bounds positions, after
`wouldMatch(board, pos1, pos2)` returns, the board's contents are
identical to its pre-call state — both on the special-combination
shortcut (which never touches the board) and on the
swap / `hasMatchAt` / swap-back path, and regardless of the boolean
result. -/
theorem C3_wouldMatch_restores_board (g : GridT) (p1 p2 : Pos)
    (h1 : InBounds g p1) (h2 : InBounds g p2) :
    (wouldMatch g p1 p2).2 = g :=
  wouldMatch_restores g p1 p2 h1 h2

/-- A sample 6x6 board with no matches. -/
def gridC3 : GridT :=
  [mkRow [Kind.heart, Kind.diamond, Kind.heart, Kind.diamond, Kind.heart, Kind.diamond],
   mkRow [Kind.rose, Kind.star, Kind.rose, Kind.star, Kind.rose, Kind.star],
   mkRow [Kind.heart, Kind.diamond, Kind.heart, Kind.diamond, Kind.heart, Kind.diamond],
   mkRow [Kind.rose, Kind.star, Kind.rose, Kind.star, Kind.rose, Kind.star],
   mkRow [Kind.heart, Kind.diamond, Kind.heart, Kind.diamond, Kind.heart, Kind.diamond],
   mkRow [Kind.rose, Kind.star, Kind.rose, Kind.star, Kind.rose, Kind.star]]

/-- Witness for C3 at a concrete board and position pair. -/
theorem C3_witness :
    InBounds gridC3 ⟨2, 3⟩ ∧ InBounds gridC3 ⟨2, 4⟩ ∧
      (wouldMatch gridC3 ⟨2, 3⟩ ⟨2, 4⟩).2 = gridC3 :=
  ⟨by decide, by decide,
   C3_wouldMatch_restores_board gridC3 ⟨2, 3⟩ ⟨2, 4⟩ (by decide) (by decide)⟩

lemma getCombinationType_symm (t1 t2 : SpecialKind) :
    getCombinationType t1 t2 = getCombinationType t2 t1 := by
  cases t1 <;> cases t2 <;> rfl

/-- C10: combination classification is symmetric — for every board and
positions, `isSpecialCombination` applied to the pair in either order
yields the same `combinationType` (in particular for all nine ordered
pairs of special kinds); both orders also agree on whether a
combination exists at all. -/
theorem C10_combination_symmetric (g : GridT) (p1 p2 : Pos) :
    (isSpecialCombination g p1 p2).map (fun c => c.combinationType) =
      (isSpecialCombination g p2 p1).map (fun c => c.combinationType) := by
  unfold isSpecialCombination
  cases s1 : isSpecialCandy (getCell g p1.row p1.col) <;>
    cases s2 : isSpecialCandy (getCell g p2.row p2.col) <;>
      simp [getCombinationType_symm]

/-! ### C7: clear-set cardinalities -/

lemma wwClear_card (n r c : Nat) (h6 : 6 ≤ n) (h10 : n ≤ 10)
    (hr1 : 2 ≤ r) (hr2 : r + 2 < n) (hc1 : 2 ≤ c) (hc2 : c + 2 < n)
    (comb : Combination)
    (hct : comb.combinationType = CombinationType.wrappedWrapped)
    (hp : comb.pos1 = ⟨r, c⟩) :
    (specialComboClearSize n comb).length = 25 ∧
      ((specialComboClearSize n comb).map fun q => (q.row, q.col)).Nodup := by
  have hr' : r < n - 2 := by omega
  have hc' : c < n - 2 := by omega
  simp only [specialComboClearSize, hct, hp]
  interval_cases n <;> interval_cases r <;> interval_cases c <;> decide

lemma getSpecialClearPositions_congr_length (g g' : GridT) (p : Pos) (t : SpecialKind)
    (h : g.length = g'.length) :
    getSpecialClearPositions g p t = getSpecialClearPositions g' p t := by
  cases t <;> simp [getSpecialClearPositions, h]

lemma cornerWrapped_card (n pr pc : Nat) (h6 : 6 ≤ n) (h10 : n ≤ 10)
    (hr : pr = 0 ∨ pr = n - 1) (hc : pc = 0 ∨ pc = n - 1) :
    (getSpecialClearPositions (List.replicate n ([] : List Cell)) ⟨pr, pc⟩
        SpecialKind.wrapped).length = 4 ∧
      ((getSpecialClearPositions (List.replicate n ([] : List Cell)) ⟨pr, pc⟩
        SpecialKind.wrapped).map fun q => (q.row, q.col)).Nodup := by
  interval_cases n <;> rcases hr with hr | hr <;> rcases hc with hc | hc <;>
    subst hr <;> subst hc <;> decide

lemma striped_card (g : GridT) (p : Pos) :
    (getSpecialClearPositions g p SpecialKind.stripedH).length = g.length ∧
      ((getSpecialClearPositions g p SpecialKind.stripedH).map
        fun q => (q.row, q.col)).Nodup ∧
      (getSpecialClearPositions g p SpecialKind.stripedV).length = g.length ∧
      ((getSpecialClearPositions g p SpecialKind.stripedV).map
        fun q => (q.row, q.col)).Nodup := by
  refine ⟨by simp [getSpecialClearPositions], ?_, by simp [getSpecialClearPositions], ?_⟩
  · simp only [getSpecialClearPositions, List.map_map]
    refine (List.nodup_range _).map ?_
    intro a b hab
    simpa using hab
  · simp only [getSpecialClearPositions, List.map_map]
    refine (List.nodup_range _).map ?_
    intro a b hab
    simpa using hab

/-- C7: clear-set cardinalities on an `N×N` board with `6 ≤ N ≤ 10`:
a wrapped-wrapped combination centred at least 2 cells from every edge
clears exactly 25 distinct positions; an area-clear special activated
at a corner clears exactly 4 distinct positions; a line-clear special
(either orientation) clears exactly `N` distinct positions. -/
theorem C7_clear_set_cardinalities (g : GridT) (comb : Combination) (r c : Nat)
    (p : Pos) (h6 : 6 ≤ g.length) (h10 : g.length ≤ 10) :
    (comb.combinationType = CombinationType.wrappedWrapped → comb.pos1 = ⟨r, c⟩ →
      2 ≤ r → r + 2 < g.length → 2 ≤ c → c + 2 < g.length →
      (getSpecialCombinationClearPositions g comb).length = 25 ∧
        ((getSpecialCombinationClearPositions g comb).map
          fun q => (q.row, q.col)).Nodup) ∧
    ((p.row = 0 ∨ p.row = g.length - 1) → (p.col = 0 ∨ p.col = g.length - 1) →
      (getSpecialClearPositions g p SpecialKind.wrapped).length = 4 ∧
        ((getSpecialClearPositions g p SpecialKind.wrapped).map
          fun q => (q.row, q.col)).Nodup) ∧
    ((getSpecialClearPositions g p SpecialKind.stripedH).length = g.length ∧
      ((getSpecialClearPositions g p SpecialKind.stripedH).map
        fun q => (q.row, q.col)).Nodup ∧
      (getSpecialClearPositions g p SpecialKind.stripedV).length = g.length ∧
      ((getSpecialClearPositions g p SpecialKind.stripedV).map
        fun q => (q.row, q.col)).Nodup) := by
  refine ⟨?_, ?_, striped_card g p⟩
  · intro hct hp hr1 hr2 hc1 hc2
    exact wwClear_card g.length r c h6 h10 hr1 hr2 hc1 hc2 comb hct hp
  · intro hr hc
    obtain ⟨pr, pc⟩ := p
    rw [getSpecialClearPositions_congr_length g (List.replicate g.length []) _ _
      (by simp)]
    exact cornerWrapped_card g.length pr pc h6 h10 hr hc

/-- A sample combination for the C7 witness. -/
def combC7 : Combination :=
  ⟨⟨3, 3⟩, ⟨3, 4⟩, SpecialKind.wrapped, SpecialKind.wrapped,
    CombinationType.wrappedWrapped⟩

/-- Witness for C7 on a concrete 6x6 board: interior wrapped-wrapped
combination, corner area-clear, and line-clears. -/
theorem C7_witness :
    (getSpecialCombinationClearPositions gridC3 combC7).length = 25 ∧
      (getSpecialClearPositions gridC3 ⟨0, 5⟩ SpecialKind.wrapped).length = 4 ∧
      (getSpecialClearPositions gridC3 ⟨2, 3⟩ SpecialKind.stripedH).length = 6 :=
  ⟨((C7_clear_set_cardinalities gridC3 combC7 3 3 ⟨0, 5⟩ (by decide) (by decide)).1
      rfl rfl (by decide) (by decide) (by decide) (by decide)).1,
   ((C7_clear_set_cardinalities gridC3 combC7 3 3 ⟨0, 5⟩ (by decide) (by decide)).2.1
      (Or.inl rfl) (Or.inr (by decide))).1,
   (C7_clear_set_cardinalities gridC3 combC7 3 3 ⟨2, 3⟩ (by decide) (by decide)).2.2.1⟩

/-! ### C5: special-combination chaining -/

lemma dedupPositionsGo_mem_same (l : List CPos) (seen : List (Nat × Nat)) (a : CPos)
    (ha : a ∈ l) (hs : (a.row, a.col) ∉ seen) :
    ∃ m ∈ dedupPositionsGo seen l, m.row = a.row ∧ m.col = a.col := by
  induction l generalizing seen with
  | nil => cases ha
  | cons p ps ih =>
    rcases List.mem_cons.mp ha with heq | ha'
    · subst heq
      unfold dedupPositionsGo
      by_cases hkey : (a.row, a.col) ∈ seen
      · exact absurd hkey hs
      · simp only [if_neg hkey]
        exact ⟨a, by simp, rfl, rfl⟩
    · unfold dedupPositionsGo
      by_cases hkey : (p.row, p.col) ∈ seen
      · simp only [if_pos hkey]
        exact ih seen ha' hs
      · simp only [if_neg hkey]
        by_cases hpa : (a.row, a.col) = (p.row, p.col)
        · refine ⟨p, by simp, ?_, ?_⟩
          · exact ((Prod.mk.injEq _ _ _ _).mp hpa).1.symm
          · exact ((Prod.mk.injEq _ _ _ _).mp hpa).2.symm
        · have hs' : (a.row, a.col) ∉ (p.row, p.col) :: seen := by
            simp only [List.mem_cons]
            rintro (h | h)
            · exact hpa h
            · exact hs h
          obtain ⟨m, hm, he⟩ := ih ((p.row, p.col) :: seen) ha' hs'
          exact ⟨m, by simp [hm], he⟩

lemma dedupPositions_mem_same (l : List CPos) (a : CPos) (ha : a ∈ l) :
    ∃ m ∈ dedupPositions l, m.row = a.row ∧ m.col = a.col :=
  dedupPositionsGo_mem_same l [] a ha (by simp)

/-- The chained-activation closure property asserted by the claim: in
the final clear set of a special combination, every position other
than the two swapped specials that holds a special tile has that
special's full clear positions inside the final set as well. -/
def ChainClosed (g : GridT) (p1 p2 : Pos) (comb : Combination) : Prop :=
  ∀ q ∈ comboClearSet g p1 p2 comb,
    ¬(q.row = p1.row ∧ q.col = p1.col) → ¬(q.row = p2.row ∧ q.col = p2.col) →
    ∀ sp ∈ (isSpecialCandy (getCell g q.row q.col)).toList,
      ∀ x ∈ getSpecialClearPositions g ⟨q.row, q.col⟩ sp,
        ∃ m ∈ comboClearSet g p1 p2 comb, m.row = x.row ∧ m.col = x.col

instance (g : GridT) (p1 p2 : Pos) (comb : Combination) :
    Decidable (ChainClosed g p1 p2 comb) := by
  unfold ChainClosed; infer_instance

/-- The board refuting recursive chain closure: two wrapped specials
at `(0,0)`/`(0,1)` to combine, a row-clear special at `(2,2)` caught
in the combination blast, and a column-clear special at `(2,5)`
caught only in the chained row blast. -/
def gridC5 : GridT :=
  [mkRow [Kind.heart, Kind.diamond, Kind.heart, Kind.diamond, Kind.heart, Kind.diamond],
   mkRow [Kind.rose, Kind.star, Kind.rose, Kind.star, Kind.rose, Kind.star],
   mkRow [Kind.heart, Kind.diamond, Kind.heart, Kind.diamond, Kind.heart, Kind.diamond],
   mkRow [Kind.rose, Kind.star, Kind.rose, Kind.star, Kind.rose, Kind.star],
   mkRow [Kind.heart, Kind.diamond, Kind.heart, Kind.diamond, Kind.heart, Kind.diamond],
   mkRow [Kind.rose, Kind.star, Kind.rose, Kind.star, Kind.rose, Kind.star]].map
    (fun rowL => rowL)
  |>.set 0 ((mkRow [Kind.heart, Kind.diamond, Kind.heart, Kind.diamond, Kind.heart,
      Kind.diamond]).set 0 (some ⟨some Kind.heart, some SpecialKind.wrapped, false, none⟩)
    |>.set 1 (some ⟨some Kind.diamond, some SpecialKind.wrapped, false, none⟩))
  |>.set 2 ((mkRow [Kind.heart, Kind.diamond, Kind.heart, Kind.diamond, Kind.heart,
      Kind.diamond]).set 2 (some ⟨some Kind.heart, some SpecialKind.stripedH, false, none⟩)
    |>.set 5 (some ⟨some Kind.diamond, some SpecialKind.stripedV, false, none⟩))

/-- The combination the engine computes for the C5 board. -/
def combC5 : Combination :=
  ⟨⟨0, 0⟩, ⟨0, 1⟩, SpecialKind.wrapped, SpecialKind.wrapped,
    CombinationType.wrappedWrapped⟩

/-- Counterexample to C5 as stated: on `gridC5`, the swapped
combination's final clear set contains the chained position `(2,5)`
holding a column-clear special, yet that special's clear positions are
not all in the final set — the set is not closed under chained
activation. -/
theorem C5_counterexample :
    isSpecialCombination gridC5 ⟨0, 0⟩ ⟨0, 1⟩ = some combC5 ∧
      ¬ ChainClosed (swapCells gridC5 ⟨0, 0⟩ ⟨0, 1⟩) ⟨0, 0⟩ ⟨0, 1⟩ combC5 := by
  constructor
  · decide
  · decide

/-- C5 (amended): chaining is one level deep — every position of the
combination's own clear set (other than the two swapped specials) that
holds a special tile has that special's clear positions unioned into
the final clear set; a special caught only in a chained special's
blast is not activated. -/
theorem C5_one_level_chaining (g : GridT) (p1 p2 : Pos) (comb : Combination)
    (pos : CPos) (hmem : pos ∈ getSpecialCombinationClearPositions g comb)
    (hne1 : ¬(pos.row = p1.row ∧ pos.col = p1.col))
    (hne2 : ¬(pos.row = p2.row ∧ pos.col = p2.col))
    (t : Tile) (ht : getCell g pos.row pos.col = some t)
    (sp : SpecialKind) (hsp : t.special = some sp) :
    ∀ q ∈ getSpecialClearPositions g ⟨pos.row, pos.col⟩ sp,
      ∃ m ∈ comboClearSet g p1 p2 comb, m.row = q.row ∧ m.col = q.col := by
  intro q hq
  have hq' : q ∈ chainExtras g p1 p2 pos := by
    unfold chainExtras
    rw [if_neg (by tauto)]
    rw [ht]
    simp only [hsp]
    exact hq
  apply dedupPositions_mem_same
  rw [List.mem_append]
  right
  rw [List.mem_flatMap]
  exact ⟨pos, hmem, hq'⟩

/-- Witness for the amended C5 on the concrete board: the row-clear
special at `(2,2)` inside the combination blast chains, bringing
`(2,5)` into the final clear set. -/
theorem C5_witness :
    ∃ m ∈ comboClearSet (swapCells gridC5 ⟨0, 0⟩ ⟨0, 1⟩) ⟨0, 0⟩ ⟨0, 1⟩ combC5,
      m.row = 2 ∧ m.col = 5 :=
  C5_one_level_chaining (swapCells gridC5 ⟨0, 0⟩ ⟨0, 1⟩) ⟨0, 0⟩ ⟨0, 1⟩ combC5
    ⟨2, 2, Anim.megaExploding⟩ (by decide) (by decide) (by decide)
    ⟨some Kind.heart, some SpecialKind.stripedH, false, none⟩ (by decide)
    SpecialKind.stripedH rfl ⟨2, 5, Anim.clearingRow⟩ (by decide)

/-! ### C2: every spawn request targets a matched position -/

lemma flushRun_pos_mem (L : LineCtx) (ms ml : Nat) (sp : Spawn)
    (h : sp ∈ (flushRun L ms ml).2) : sp.pos ∈ (flushRun L ms ml).1 := by
  unfold flushRun at h ⊢
  by_cases h3 : 3 ≤ ml
  · rw [if_pos h3] at h ⊢
    simp only at h ⊢
    have hd : ml / 2 < ml := by omega
    by_cases h4 : ml = 4
    · rw [if_pos h4] at h
      simp only [List.mem_singleton] at h
      subst h
      exact List.mem_map.mpr ⟨ml / 2, List.mem_range.mpr hd, rfl⟩
    · rw [if_neg h4] at h
      by_cases h5 : 5 ≤ ml
      · rw [if_pos h5] at h
        simp only [List.mem_singleton] at h
        subst h
        exact List.mem_map.mpr ⟨ml / 2, List.mem_range.mpr hd, rfl⟩
      · rw [if_neg h5] at h
        cases h
  · rw [if_neg h3] at h
    cases h

lemma scanGo_spawn_pos_mem (L : LineCtx) :
    ∀ fuel col ms ml, ∀ sp ∈ (scanGo L fuel col ms ml).2,
      sp.pos ∈ (scanGo L fuel col ms ml).1 := by
  intro fuel
  induction fuel with
  | zero =>
    intro col ms ml sp hsp
    simp [scanGo] at hsp
  | succ fuel ih =>
    intro col ms ml sp hsp
    rw [scanGo] at hsp ⊢
    by_cases hc : col < L.size ∧ HExt L col
    · rw [if_pos hc] at hsp ⊢
      exact ih _ _ _ sp hsp
    · rw [if_neg hc] at hsp ⊢
      simp only [List.mem_append] at hsp ⊢
      rcases hsp with h | h
      · exact Or.inl (flushRun_pos_mem L ms ml sp h)
      · exact Or.inr (ih _ _ _ sp h)

lemma hSpawns_pos_mem (g : GridT) (sp : Spawn) (h : sp ∈ hSpawns g) :
    sp.pos ∈ hMatches g := by
  unfold hSpawns at h
  unfold hMatches
  rw [List.mem_flatten] at h ⊢
  obtain ⟨l, hl, hsp⟩ := h
  rw [List.mem_map] at hl
  obtain ⟨r, hr, rfl⟩ := hl
  exact ⟨(scanLine (hLine g r)).1,
    List.mem_map.mpr ⟨r, hr, rfl⟩,
    scanGo_spawn_pos_mem (hLine g r) _ _ _ _ sp hsp⟩

lemma vSpawns_pos_mem (g : GridT) (sp : Spawn) (h : sp ∈ vSpawns g) :
    sp.pos ∈ vMatches g := by
  unfold vSpawns at h
  unfold vMatches
  rw [List.mem_flatten] at h ⊢
  obtain ⟨l, hl, hsp⟩ := h
  rw [List.mem_map] at hl
  obtain ⟨c, hc, rfl⟩ := hl
  exact ⟨(scanLine (vLine g c)).1,
    List.mem_map.mpr ⟨c, hc, rfl⟩,
    scanGo_spawn_pos_mem (vLine g c) _ _ _ _ sp hsp⟩

lemma ltStep_cases (g : GridT) (st : List Pos × List Spawn) (pos : Pos) :
    ltStep g st pos = st ∨
      ∃ k, ltStep g st pos = (st.1 ++ [pos], st.2 ++ [⟨pos, SpecialKind.wrapped, some k⟩]) := by
  unfold ltStep
  by_cases h1 : pos ∈ st.1
  · rw [if_pos h1]
    exact Or.inl rfl
  · rw [if_neg h1]
    cases ht : getTileType (getCell g pos.row pos.col) with
    | none => exact Or.inl rfl
    | some k =>
      simp only
      split
      · exact Or.inr ⟨k, rfl⟩
      · exact Or.inl rfl

lemma ltFold_mem (g : GridT) (l : List Pos) :
    ∀ (st : List Pos × List Spawn), ∀ sp ∈ (l.foldl (ltStep g) st).2,
      sp ∈ st.2 ∨ (sp.stype = SpecialKind.wrapped ∧ sp.pos ∈ l) := by
  induction l with
  | nil => intro st sp h; exact Or.inl h
  | cons p ps ih =>
    intro st sp h
    rw [List.foldl_cons] at h
    rcases ih (ltStep g st p) sp h with h1 | h1
    · rcases ltStep_cases g st p with he | ⟨k, he⟩
      · rw [he] at h1
        exact Or.inl h1
      · rw [he] at h1
        simp only [List.mem_append, List.mem_singleton] at h1
        rcases h1 with h2 | h2
        · exact Or.inl h2
        · subst h2
          exact Or.inr ⟨rfl, by simp⟩
    · exact Or.inr ⟨h1.1, by simp [h1.2]⟩

lemma findLTShapes_pos_mem (g : GridT) (matched : List Pos) (sp : Spawn)
    (h : sp ∈ findLTShapes g matched) : sp.pos ∈ matched := by
  unfold findLTShapes at h
  rcases ltFold_mem g matched ([], []) sp h with h1 | h1
  · cases h1
  · exact h1.2

lemma dedupPosGo_mem (l : List Pos) :
    ∀ (seen : List Pos) (a : Pos), a ∈ dedupPosGo seen l ↔ (a ∈ l ∧ a ∉ seen) := by
  induction l with
  | nil => intro seen a; simp [dedupPosGo]
  | cons p ps ih =>
    intro seen a
    unfold dedupPosGo
    by_cases hkey : p ∈ seen
    · rw [if_pos hkey, ih]
      constructor
      · rintro ⟨h1, h2⟩
        exact ⟨by simp [h1], h2⟩
      · rintro ⟨h1, h2⟩
        rcases List.mem_cons.mp h1 with rfl | h1'
        · exact absurd hkey h2
        · exact ⟨h1', h2⟩
    · rw [if_neg hkey]
      simp only [List.mem_cons, ih]
      constructor
      · rintro (rfl | ⟨h1, h2⟩)
        · exact ⟨Or.inl rfl, hkey⟩
        · refine ⟨Or.inr h1, fun hc => h2 (by simp [hc])⟩
      · rintro ⟨h1 | h1, h2⟩
        · exact Or.inl h1
        · by_cases hap : a = p
          · exact Or.inl hap
          · exact Or.inr ⟨h1, by simp [hap, h2]⟩

lemma dedupPos_mem (l : List Pos) (a : Pos) : a ∈ dedupPos l ↔ a ∈ l := by
  unfold dedupPos
  rw [dedupPosGo_mem]
  simp

lemma createSpecialsStep_id (g' : GridT) (cleared : List CPos) (specials : List Spawn)
    (h : ∀ sp ∈ specials,
      (cleared.any fun m => m.row = sp.pos.row ∧ m.col = sp.pos.col) = true) :
    createSpecialsStep g' cleared specials = g' := by
  induction specials generalizing g' with
  | nil => rfl
  | cons s ss ih =>
    unfold createSpecialsStep
    rw [List.foldl_cons]
    have hstep :
        (if (cleared.any fun m => m.row = s.pos.row ∧ m.col = s.pos.col) then g'
         else createSpecialCandy g' s.pos.row s.pos.col s.stype s.candyType) = g' := by
      rw [if_pos]
      exact h s (by simp)
    rw [hstep]
    exact ih g' fun sp hsp => h sp (by simp [hsp])

/-- C2: every special spawn request returned by `findAllMatches` (both
the per-run length-4/length-5 requests and the L/T-intersection
requests) targets a position in the match set of the same call;
consequently, in a cascade pass whose clear set covers all matched
positions, the guard "create the special only if its position was not
cleared this pass" blocks every creation, and the special-creation
step leaves the grid unchanged. -/
theorem C2_spawns_target_matched_positions (g : GridT) :
    (∀ sp ∈ (findAllMatches g).2, sp.pos ∈ (findAllMatches g).1) ∧
    (∀ (g' : GridT) (cleared : List CPos),
      (∀ p ∈ (findAllMatches g).1,
        (cleared.any fun m => m.row = p.row ∧ m.col = p.col) = true) →
      createSpecialsStep g' cleared (findAllMatches g).2 = g') := by
  have hmem : ∀ sp ∈ (findAllMatches g).2, sp.pos ∈ (findAllMatches g).1 := by
    intro sp hsp
    unfold findAllMatches at hsp ⊢
    simp only [List.mem_append] at hsp
    rcases hsp with (h | h) | h
    · show sp.pos ∈ matchedPositions g
      unfold matchedPositions
      rw [dedupPos_mem, List.mem_append]
      exact Or.inl (hSpawns_pos_mem g sp h)
    · show sp.pos ∈ matchedPositions g
      unfold matchedPositions
      rw [dedupPos_mem, List.mem_append]
      exact Or.inr (vSpawns_pos_mem g sp h)
    · exact findLTShapes_pos_mem g (matchedPositions g) sp h
  refine ⟨hmem, ?_⟩
  intro g' cleared hcov
  exact createSpecialsStep_id g' cleared (findAllMatches g).2
    fun sp hsp => hcov sp.pos (hmem sp hsp)

/-- A 6x6 board with one maximal horizontal run of 4 hearts in row 0
and no other run of length ≥ 3. -/
def gridC2 : GridT :=
  [mkRow [Kind.heart, Kind.heart, Kind.heart, Kind.heart, Kind.diamond, Kind.rose],
   mkRow [Kind.rose, Kind.star, Kind.rose, Kind.star, Kind.rose, Kind.star],
   mkRow [Kind.heart, Kind.diamond, Kind.heart, Kind.diamond, Kind.heart, Kind.diamond],
   mkRow [Kind.rose, Kind.star, Kind.rose, Kind.star, Kind.rose, Kind.star],
   mkRow [Kind.heart, Kind.diamond, Kind.heart, Kind.diamond, Kind.heart, Kind.diamond],
   mkRow [Kind.rose, Kind.star, Kind.rose, Kind.star, Kind.rose, Kind.star]]

/-- Witness for C2 on the concrete board: the single spawn request of
the 4-run targets a matched position, and with the matched positions
cleared the special-creation step is the identity. -/
theorem C2_witness :
    (⟨⟨0, 2⟩, SpecialKind.stripedH, some Kind.heart⟩ : Spawn).pos ∈
        (findAllMatches gridC2).1 ∧
      createSpecialsStep gridC2
        [⟨0, 0, Anim.matched⟩, ⟨0, 1, Anim.matched⟩, ⟨0, 2, Anim.matched⟩,
          ⟨0, 3, Anim.matched⟩]
        (findAllMatches gridC2).2 = gridC2 :=
  ⟨(C2_spawns_target_matched_positions gridC2).1
      ⟨⟨0, 2⟩, SpecialKind.stripedH, some Kind.heart⟩ (by decide),
   (C2_spawns_target_matched_positions gridC2).2 gridC2
      [⟨0, 0, Anim.matched⟩, ⟨0, 1, Anim.matched⟩, ⟨0, 2, Anim.matched⟩,
        ⟨0, 3, Anim.matched⟩] (by decide)⟩

/-! ### C6: move accounting of `attemptSwap` -/

/-- C6: an adjacent swap request whose two positions are not both
special tiles and for which `wouldMatch` is false consumes no move and
leaves the board unchanged; a special-special combination swap and an
ordinary valid swap (the two paths that mutate the board) each consume
exactly one move. -/
theorem C6_move_accounting (sup : Nat → Kind × Bool) (fuel : Nat) (st : GameState)
    (p1 p2 : Pos) (c : Nat) :
    (areAdjacent p1 p2 = true → InBounds st.grid p1 → InBounds st.grid p2 →
      isSpecialCombination st.grid p1 p2 = none →
      (wouldMatch st.grid p1 p2).1 = false →
      (attemptSwap sup fuel st p1 p2 c).1.grid = st.grid ∧
        (attemptSwap sup fuel st p1 p2 c).1.moves = st.moves) ∧
    (∀ comb, isSpecialCombination st.grid p1 p2 = some comb →
      (attemptSwap sup fuel st p1 p2 c).1.moves = st.moves - 1) ∧
    (isSpecialCombination st.grid p1 p2 = none →
      (wouldMatch st.grid p1 p2).1 = true →
      (attemptSwap sup fuel st p1 p2 c).1.moves = st.moves - 1) := by
  refine ⟨?_, ?_, ?_⟩
  · intro _hadj h1 h2 hsc hwm
    unfold attemptSwap
    rw [hsc]
    simp only [hwm, Bool.false_eq_true, if_false]
    exact ⟨wouldMatch_restores st.grid p1 p2 h1 h2, trivial⟩
  · intro comb hcomb
    unfold attemptSwap
    rw [hcomb]
    rfl
  · intro hsc hwm
    unfold attemptSwap
    rw [hsc]
    simp only [hwm, if_true]

/-- A 6x6 board where swapping `(0,2)` with `(1,2)` creates a
horizontal run of 3 hearts; no special tiles anywhere. -/
def gridC6 : GridT :=
  [mkRow [Kind.heart, Kind.heart, Kind.diamond, Kind.star, Kind.rose, Kind.star],
   mkRow [Kind.diamond, Kind.star, Kind.heart, Kind.diamond, Kind.star, Kind.rose],
   mkRow [Kind.heart, Kind.diamond, Kind.heart, Kind.diamond, Kind.heart, Kind.diamond],
   mkRow [Kind.rose, Kind.star, Kind.rose, Kind.star, Kind.rose, Kind.star],
   mkRow [Kind.heart, Kind.diamond, Kind.heart, Kind.diamond, Kind.heart, Kind.diamond],
   mkRow [Kind.rose, Kind.star, Kind.rose, Kind.star, Kind.rose, Kind.star]]

/-- Witness for C6 at concrete inputs: an invalid swap on the
checkerboard consumes no move and leaves the grid intact; the
combination swap of `gridC5` and the valid swap of `gridC6` each
consume exactly one move. -/
theorem C6_witness :
    ((attemptSwap (fun _ => (Kind.heart, false)) 1 ⟨gridC3, 10⟩ ⟨0, 0⟩ ⟨0, 1⟩ 0).1.grid
        = gridC3 ∧
      (attemptSwap (fun _ => (Kind.heart, false)) 1 ⟨gridC3, 10⟩ ⟨0, 0⟩
        ⟨0, 1⟩ 0).1.moves = 10) ∧
    (attemptSwap (fun _ => (Kind.heart, false)) 1 ⟨gridC5, 10⟩ ⟨0, 0⟩
        ⟨0, 1⟩ 0).1.moves = 9 ∧
    (attemptSwap (fun _ => (Kind.heart, false)) 1 ⟨gridC6, 10⟩ ⟨0, 2⟩
        ⟨1, 2⟩ 0).1.moves = 9 :=
  ⟨(C6_move_accounting (fun _ => (Kind.heart, false)) 1 ⟨gridC3, 10⟩ ⟨0, 0⟩ ⟨0, 1⟩ 0).1
      (by decide) (by decide) (by decide) (by decide) (by decide),
   (C6_move_accounting (fun _ => (Kind.heart, false)) 1 ⟨gridC5, 10⟩ ⟨0, 0⟩ ⟨0, 1⟩ 0).2.1
      combC5 (by decide),
   (C6_move_accounting (fun _ => (Kind.heart, false)) 1 ⟨gridC6, 10⟩ ⟨0, 2⟩ ⟨1, 2⟩ 0).2.2
      (by decide) (by decide)⟩

/-! ### C9: refill bias neighborhood scan order -/

/-- The tagged-tile lookup at one offset of the 5x5 window, shared by
the two claim-side orderings below. -/
def memoryTileAt (g : GridT) (row col : Nat) (d : Int × Int) : Option Tile :=
  let nr := (row : Int) + d.1
  let nc := (col : Int) + d.2
  if 0 ≤ nr ∧ nr < (g.length : Int) ∧ 0 ≤ nc ∧ nc < (g.length : Int) then
    (getCell g nr.toNat nc.toNat).bind fun t => if t.isMemory then some t else none
  else none

/-- The 25 offsets of the Chebyshev-radius-2 window in plain row-major
order. -/
def rowMajorOffsets : List (Int × Int) :=
  [(-2, -2), (-2, -1), (-2, 0), (-2, 1), (-2, 2),
   (-1, -2), (-1, -1), (-1, 0), (-1, 1), (-1, 2),
   (0, -2), (0, -1), (0, 0), (0, 1), (0, 2),
   (1, -2), (1, -1), (1, 0), (1, 1), (1, 2),
   (2, -2), (2, -1), (2, 0), (2, 1), (2, 2)]

/-- The base kind of the first tagged tile of the 5x5 window in
row-major order (the amended reading of the claim's scan order). -/
def spec_rowMajorFirstTagged (g : GridT) (row col : Nat) : Option Kind :=
  ((rowMajorOffsets.filterMap (memoryTileAt g row col)).head?).bind fun t => t.type

/-- The 25 offsets of the Chebyshev-radius-2 window ordered by radius
ascending (radius 0, then the radius-1 ring, then the radius-2 ring,
row-major within each ring). -/
def radiusOffsets : List (Int × Int) :=
  [(0, 0),
   (-1, -1), (-1, 0), (-1, 1), (0, -1), (0, 1), (1, -1), (1, 0), (1, 1),
   (-2, -2), (-2, -1), (-2, 0), (-2, 1), (-2, 2), (-1, -2), (-1, 2),
   (0, -2), (0, 2), (1, -2), (1, 2), (2, -2), (2, -1), (2, 0), (2, 1), (2, 2)]

/-- The base kind of the first tagged tile of the 5x5 window in
radius-ascending order, as the claim's "row-major, radius ascending"
wording asserts. -/
def spec_radiusFirstTagged (g : GridT) (row col : Nat) : Option Kind :=
  ((radiusOffsets.filterMap (memoryTileAt g row col)).head?).bind fun t => t.type

lemma flatMap_toList_eq_filterMap {α β : Type} (f : α → Option β) (l : List α) :
    (l.flatMap fun a => (f a).toList) = l.filterMap f := by
  induction l with
  | nil => rfl
  | cons a as ih =>
    simp only [List.flatMap_cons, List.filterMap_cons]
    cases f a <;> simp [ih]

/-- C9 (amended): `getHelpfulTypeForPosition` returns the base kind of
the first tagged tile of the 5x5 Chebyshev-radius-2 window in plain
row-major scan order (radius plays no role in the order); on the
biased path the helpful kind overrides the uniform draw when one
exists, and on the unbiased path or when the window holds no tagged
tile the uniform draw is used. -/
theorem C9_bias_first_tagged_row_major (g : GridT) (row col : Nat) (k0 : Kind) :
    getHelpfulTypeForPosition g row col = spec_rowMajorFirstTagged g row col ∧
    spawnKindAt g row col k0 false = k0 ∧
    (getHelpfulTypeForPosition g row col = none →
      spawnKindAt g row col k0 true = k0) ∧
    (∀ hk, getHelpfulTypeForPosition g row col = some hk →
      spawnKindAt g row col k0 true = hk) := by
  refine ⟨?_, rfl, ?_, ?_⟩
  · unfold getHelpfulTypeForPosition spec_rowMajorFirstTagged
    congr 2
    rw [← flatMap_toList_eq_filterMap]
    rw [show rowMajorOffsets =
      intRange5.flatMap (fun dr => intRange5.map fun dc => (dr, dc)) from by decide]
    rw [List.flatMap_assoc]
    congr 1
    funext dr
    rw [List.flatMap_map]
    congr 1
    funext dc
    unfold memoryTileAt
    simp only
    split
    · cases hcell : getCell g ((row : Int) + dr).toNat ((col : Int) + dc).toNat with
      | none => rfl
      | some t => cases ht : t.isMemory <;> simp [ht]
    · rfl
  · intro h
    unfold spawnKindAt
    rw [h]
    simp
  · intro hk h
    unfold spawnKindAt
    rw [h]
    simp

/-- The board showing the scan order is not radius-ascending: a tagged
star tile at `(0,2)` (radius 2 from the probed cell `(2,2)`) and a
tagged rose tile at `(2,1)` (radius 1). -/
def gridC9 : GridT :=
  [(mkRow [Kind.heart, Kind.heart, Kind.star, Kind.heart, Kind.heart, Kind.heart]).set 2
     (some ⟨some Kind.star, none, true, some 0⟩),
   mkRow [Kind.heart, Kind.heart, Kind.heart, Kind.heart, Kind.heart, Kind.heart],
   (mkRow [Kind.heart, Kind.rose, Kind.heart, Kind.heart, Kind.heart, Kind.heart]).set 1
     (some ⟨some Kind.rose, none, true, some 1⟩),
   mkRow [Kind.heart, Kind.heart, Kind.heart, Kind.heart, Kind.heart, Kind.heart],
   mkRow [Kind.heart, Kind.heart, Kind.heart, Kind.heart, Kind.heart, Kind.heart],
   mkRow [Kind.heart, Kind.heart, Kind.heart, Kind.heart, Kind.heart, Kind.heart]]

/-- Counterexample to C9 as stated: at `(2,2)` on `gridC9` the bias
function returns the kind of the radius-2 tagged tile found first in
row-major order, not the kind of the radius-1 tagged tile that a
radius-ascending scan would find first. -/
theorem C9_counterexample :
    getHelpfulTypeForPosition gridC9 2 2 = some Kind.star ∧
      spec_radiusFirstTagged gridC9 2 2 = some Kind.rose ∧
      getHelpfulTypeForPosition gridC9 2 2 ≠ spec_radiusFirstTagged gridC9 2 2 := by
  refine ⟨by decide, by decide, by decide⟩

/-- Witness for the amended C9 at concrete inputs. -/
theorem C9_witness :
    getHelpfulTypeForPosition gridC9 2 2 = spec_rowMajorFirstTagged gridC9 2 2 ∧
      spawnKindAt gridC9 2 2 Kind.diamond true = Kind.star ∧
      spawnKindAt gridC9 5 5 Kind.diamond true = Kind.diamond :=
  ⟨(C9_bias_first_tagged_row_major gridC9 2 2 Kind.diamond).1,
   (C9_bias_first_tagged_row_major gridC9 2 2 Kind.diamond).2.2.2 Kind.star (by decide),
   (C9_bias_first_tagged_row_major gridC9 5 5 Kind.diamond).2.2.1 (by decide)⟩

/-! ### C4: backward-checked generation yields no starting matches -/

lemma chain_type_eq (L : LineCtx) {ms col : Nat}
    (h3 : ∀ i, ms < i → i < col → HExt L i) :
    ∀ j, ms ≤ j → j < col → tTypeAt L j = tTypeAt L ms := by
  intro j
  induction j with
  | zero =>
    intro h1 _
    have h0 : ms = 0 := Nat.le_zero.mp h1
    rw [h0]
  | succ j ih =>
    intro h1 h2
    by_cases hje : ms = j + 1
    · rw [← hje]
    · have hext := h3 (j + 1) (by omega) h2
      have hstep : tTypeAt L (j + 1) = tTypeAt L j := by
        have h' := hext.2.2
        simpa using h'
      rw [hstep]
      exact ih (by omega) (by omega)

lemma scanGo_pos_nil (L : LineCtx)
    (H : ∀ i, 2 ≤ i → i < L.size → ¬(HExt L i ∧ HExt L (i - 1))) :
    ∀ fuel col ms ml, ms + ml = col → 1 ≤ ml →
      (∀ i, ms < i → i < col → HExt L i) →
      fuel + col = L.size + 1 →
      (scanGo L fuel col ms ml).1 = [] := by
  intro fuel
  induction fuel with
  | zero => intro col ms ml _ _ _ _; rfl
  | succ fuel ih =>
    intro col ms ml h1 h2 h3 h5
    rw [scanGo]
    by_cases hc : col < L.size ∧ HExt L col
    · rw [if_pos hc]
      refine ih (col + 1) ms (ml + 1) (by omega) (by omega) ?_ (by omega)
      intro i hi1 hi2
      by_cases hic : i = col
      · rw [hic]; exact hc.2
      · exact h3 i hi1 (by omega)
    · rw [if_neg hc]
      have hml : ¬ 3 ≤ ml := by
        intro h3le
        have hcol : col ≤ L.size := by omega
        have he1 : HExt L (col - 1) := h3 (col - 1) (by omega) (by omega)
        have he2 : HExt L (col - 2) := h3 (col - 2) (by omega) (by omega)
        refine H (col - 1) (by omega) (by omega) ⟨he1, ?_⟩
        have heq : col - 1 - 1 = col - 2 := by omega
        rw [heq]
        exact he2
      have hflush : (flushRun L ms ml).1 = [] := by
        unfold flushRun
        rw [if_neg hml]
      simp only [hflush, List.nil_append]
      exact ih (col + 1) col 1 (by omega) (by omega) (fun i hi1 hi2 => by omega)
        (by omega)

lemma noTriple_matches_nil (g : GridT)
    (hsome : ∀ r < g.length, ∀ c < g.length,
      (getTileType (getCell g r c)).isSome = true)
    (hpass : ∀ r < g.length, ∀ c < g.length, ∀ k : Kind,
      getTileType (getCell g r c) = some k →
      wouldCreateInitialMatch g r c k = false) :
    (findAllMatches g).1 = [] := by
  have hH : ∀ r < g.length, (scanLine (hLine g r)).1 = [] := by
    intro r hr
    unfold scanLine
    refine scanGo_pos_nil (hLine g r) ?_ _ 1 0 1 (by omega) (by omega)
      (fun i hi1 hi2 => by omega) (by omega)
    intro i hi2 hiS hpair
    obtain ⟨⟨hs1, hs2, ht1⟩, ⟨hs3, hs4, ht2⟩⟩ := hpair
    obtain ⟨k, hk⟩ := Option.isSome_iff_exists.mp (hsome r hr i hiS)
    have hk1 : tTypeAt (hLine g r) (i - 1) = some k := by
      rw [← ht1]
      exact hk
    have hk2 : tTypeAt (hLine g r) (i - 1 - 1) = some k := by
      rw [← ht2]
      exact hk1
    have heq : i - 1 - 1 = i - 2 := by omega
    rw [heq] at hk2
    have hk1' : getTileType (getCell g r (i - 1)) = some k := hk1
    have hk2' : getTileType (getCell g r (i - 2)) = some k := hk2
    have htrue : wouldCreateInitialMatch g r i k = true := by
      unfold wouldCreateInitialMatch
      simp [hi2, hk1', hk2']
    have hfalse := hpass r hr i hiS k hk
    rw [htrue] at hfalse
    exact absurd hfalse (by simp)
  have hV : ∀ c < g.length, (scanLine (vLine g c)).1 = [] := by
    intro c hcb
    unfold scanLine
    refine scanGo_pos_nil (vLine g c) ?_ _ 1 0 1 (by omega) (by omega)
      (fun i hi1 hi2 => by omega) (by omega)
    intro i hi2 hiS hpair
    obtain ⟨⟨hs1, hs2, ht1⟩, ⟨hs3, hs4, ht2⟩⟩ := hpair
    obtain ⟨k, hk⟩ := Option.isSome_iff_exists.mp (hsome i hiS c hcb)
    have hk1 : tTypeAt (vLine g c) (i - 1) = some k := by
      rw [← ht1]
      exact hk
    have hk2 : tTypeAt (vLine g c) (i - 1 - 1) = some k := by
      rw [← ht2]
      exact hk1
    have heq : i - 1 - 1 = i - 2 := by omega
    rw [heq] at hk2
    have hk1' : getTileType (getCell g (i - 1) c) = some k := hk1
    have hk2' : getTileType (getCell g (i - 2) c) = some k := hk2
    have htrue : wouldCreateInitialMatch g i c k = true := by
      unfold wouldCreateInitialMatch
      simp [hi2, hk1', hk2']
    have hfalse := hpass i hiS c hcb k hk
    rw [htrue] at hfalse
    exact absurd hfalse (by simp)
  have hHm : hMatches g = [] := by
    unfold hMatches
    rw [List.flatten_eq_nil_iff]
    intro l hl
    obtain ⟨r, hrm, rfl⟩ := List.mem_map.mp hl
    exact hH r (List.mem_range.mp hrm)
  have hVm : vMatches g = [] := by
    unfold vMatches
    rw [List.flatten_eq_nil_iff]
    intro l hl
    obtain ⟨c, hcm, rfl⟩ := List.mem_map.mp hl
    exact hV c (List.mem_range.mp hcm)
  show matchedPositions g = []
  unfold matchedPositions
  rw [hHm, hVm]
  rfl

/-- C4: for every board produced by `generate` in which every cell
holds an accepted kind that passed the backward check (no cell fell
through the 50-attempt fallback), `findAllMatches` returns an empty
match set — never matching both left neighbours nor both upper
neighbours excludes every horizontal and vertical run of 3 or more. -/
theorem C4_generate_has_no_starting_matches (size : Nat) (sup : Nat → Kind)
    (hsome : ∀ r < (generate size sup).length, ∀ c < (generate size sup).length,
      (getTileType (getCell (generate size sup) r c)).isSome = true)
    (hpass : ∀ r < (generate size sup).length, ∀ c < (generate size sup).length,
      ∀ k : Kind, getTileType (getCell (generate size sup) r c) = some k →
      wouldCreateInitialMatch (generate size sup) r c k = false) :
    (findAllMatches (generate size sup)).1 = [] :=
  noTriple_matches_nil (generate size sup) hsome hpass

/-- A deterministic kind supply whose first candidate always passes
the backward check (rows alternate between a heart/diamond and a
rose/star palette). -/
def supC4 (n : Nat) : Kind :=
  if (n / 6) % 2 = 0 then (if n % 2 = 0 then Kind.heart else Kind.diamond)
  else (if n % 2 = 0 then Kind.rose else Kind.star)

set_option maxRecDepth 4000 in
/-- Witness for C4: a concrete 6x6 generated board whose cells all
passed the backward check scans clean. -/
theorem C4_witness : (findAllMatches (generate 6 supC4)).1 = [] :=
  C4_generate_has_no_starting_matches 6 supC4 (by decide) (by decide)

/-! ### C8: reshuffle postconditions -/

/-- A well-formed square grid: every row has the board's length. -/
def SquareGrid (g : GridT) : Prop :=
  ∀ rowL ∈ g, rowL.length = g.length

instance (g : GridT) : Decidable (SquareGrid g) := by
  unfold SquareGrid; infer_instance

lemma cons_set_perm {α : Type} (t : List α) (k : Nat) (v w : α)
    (h : t[k]? = some v) : (v :: t.set k w).Perm (w :: t) := by
  induction t generalizing k with
  | nil => simp at h
  | cons a t' ih =>
    cases k with
    | zero =>
      simp only [List.getElem?_cons_zero, Option.some.injEq] at h
      simp only [List.set_cons_zero]
      rw [← h]
      apply List.Perm.swap
    | succ k =>
      simp only [List.getElem?_cons_succ] at h
      simp only [List.set_cons_succ]
      have step1 : (v :: a :: t'.set k w).Perm (a :: v :: t'.set k w) :=
        List.Perm.swap a v _
      have step2 : (a :: v :: t'.set k w).Perm (a :: w :: t') :=
        (ih k h).cons a
      have step3 : (a :: w :: t').Perm (w :: a :: t') := List.Perm.swap w a t'
      exact (step1.trans step2).trans step3

lemma set_set_perm {α : Type} (l : List α) (i j : Nat) (a b : α)
    (hi : l[i]? = some a) (hj : l[j]? = some b) :
    ((l.set i b).set j a).Perm l := by
  induction l generalizing i j with
  | nil => simp at hi
  | cons x t ih =>
    cases i with
    | zero =>
      simp only [List.getElem?_cons_zero, Option.some.injEq] at hi
      cases j with
      | zero =>
        simp only [List.set_cons_zero]
        rw [← hi]
      | succ k =>
        simp only [List.getElem?_cons_succ] at hj
        simp only [List.set_cons_zero, List.set_cons_succ]
        rw [hi]
        exact cons_set_perm t k b a hj
    | succ m =>
      simp only [List.getElem?_cons_succ] at hi
      cases j with
      | zero =>
        simp only [List.getElem?_cons_zero, Option.some.injEq] at hj
        simp only [List.set_cons_succ, List.set_cons_zero]
        rw [hj]
        exact cons_set_perm t m a b hi
      | succ k =>
        simp only [List.getElem?_cons_succ] at hj
        simp only [List.set_cons_succ]
        exact (ih m k hi hj).cons x

lemma swapList_perm (l : List Tile) (i j : Nat) : (swapList l i j).Perm l := by
  unfold swapList
  cases hi : l[i]? with
  | none => exact List.Perm.refl l
  | some a =>
    cases hj : l[j]? with
    | none => exact List.Perm.refl l
    | some b => exact set_set_perm l i j a b hi hj

lemma fisherYatesGo_perm (js : Nat → Nat) :
    ∀ (i : Nat) (l : List Tile) (c : Nat), ((fisherYatesGo js i l c).1).Perm l := by
  intro i
  induction i with
  | zero => intro l c; exact List.Perm.refl l
  | succ i ih =>
    intro l c
    rw [fisherYatesGo]
    exact (ih _ _).trans (swapList_perm l (i + 1) (js c % (i + 2)))

lemma map_getElem?_range {α : Type} (l : List α) :
    (List.range l.length).map (fun i => l[i]?) = l.map some := by
  induction l with
  | nil => rfl
  | cons a t ih =>
    rw [List.length_cons, List.range_succ_eq_map]
    simp only [List.map_cons, List.map_map, List.getElem?_cons_zero]
    congr 1
    calc (List.range t.length).map ((fun i => (a :: t)[i]?) ∘ Nat.succ)
        = (List.range t.length).map (fun i => t[i]?) := by
          apply List.map_congr_left
          intro i _
          simp
      _ = t.map some := ih

lemma flatten_map_range {α : Type} (f : Nat → α) (m n : Nat) :
    ((List.range m).map (fun r => (List.range n).map fun c => f (r * n + c))).flatten
      = (List.range (m * n)).map f := by
  induction m with
  | zero => simp
  | succ m ih =>
    rw [List.range_succ, List.map_append, List.flatten_append, ih]
    simp only [List.map_cons, List.map_nil, List.flatten_cons, List.flatten_nil,
      List.append_nil]
    have hmn : (m + 1) * n = m * n + n := by ring
    rw [hmn, List.range_add, List.map_append, List.map_map]
    rfl

lemma filterMap_id_length {α : Type} (l : List (Option α))
    (h : ∀ x ∈ l, x.isSome = true) : (l.filterMap id).length = l.length := by
  induction l with
  | nil => rfl
  | cons x t ih =>
    cases x with
    | none =>
      exact absurd (h none (by simp)) (by simp)
    | some a =>
      have hred : List.filterMap id (some a :: t) = a :: List.filterMap id t := rfl
      rw [hred, List.length_cons, List.length_cons, ih fun y hy => h y (by simp [hy])]

lemma tilesCollect_length (g : GridT) (hsq : SquareGrid g)
    (hfull : ∀ x ∈ g.flatten, x.isSome = true) :
    (tilesCollect g).length = g.length * g.length := by
  unfold tilesCollect
  rw [filterMap_id_length _ hfull, List.length_flatten]
  have hrep : List.map List.length g = List.replicate g.length g.length := by
    rw [List.eq_replicate_iff]
    constructor
    · simp
    · intro b hb
      obtain ⟨rowL, hrow, rfl⟩ := List.mem_map.mp hb
      exact hsq rowL hrow
  rw [hrep, List.sum_replicate, smul_eq_mul]

lemma tilesCollect_regrid (n : Nat) (l : List Tile) (h : l.length = n * n) :
    tilesCollect (regrid n l) = l := by
  unfold tilesCollect regrid
  rw [flatten_map_range (fun i => l[i]?) n n, ← h, map_getElem?_range,
    List.filterMap_map]
  rw [show (id ∘ (some : Tile → Option Tile)) = (some : Tile → Option Tile) from rfl,
    List.filterMap_some]

lemma shuffleOnce_perm (js : Nat → Nat) (g : GridT) (c : Nat) (hsq : SquareGrid g)
    (hfull : ∀ x ∈ g.flatten, x.isSome = true) :
    (tilesCollect (shuffleOnce js g c).1).Perm (tilesCollect g) := by
  unfold shuffleOnce
  simp only
  rw [tilesCollect_regrid]
  · exact fisherYatesGo_perm js _ _ _
  · rw [(fisherYatesGo_perm js _ _ _).length_eq]
    exact tilesCollect_length g hsq hfull

lemma regrid_square (n : Nat) (l : List Tile) : SquareGrid (regrid n l) := by
  intro rowL h
  unfold regrid at h ⊢
  obtain ⟨r, _, rfl⟩ := List.mem_map.mp h
  simp

lemma regrid_full (n : Nat) (l : List Tile) (h : l.length = n * n) :
    ∀ x ∈ (regrid n l).flatten, x.isSome = true := by
  intro x hx
  rw [List.mem_flatten] at hx
  obtain ⟨rowL, hrow, hxr⟩ := hx
  unfold regrid at hrow
  obtain ⟨r, hr, rfl⟩ := List.mem_map.mp hrow
  obtain ⟨c, hc, rfl⟩ := List.mem_map.mp hxr
  rw [List.mem_range] at hr hc
  have hidx : r * n + c < l.length := by
    rw [h]
    calc r * n + c < r * n + n := by omega
      _ = (r + 1) * n := by ring
      _ ≤ n * n := Nat.mul_le_mul_right n (by omega)
  rw [List.getElem?_eq_getElem hidx]
  rfl

lemma shuffleOnce_square (js : Nat → Nat) (g : GridT) (c : Nat) :
    SquareGrid (shuffleOnce js g c).1 :=
  regrid_square _ _

lemma shuffleOnce_full (js : Nat → Nat) (g : GridT) (c : Nat) (hsq : SquareGrid g)
    (hfull : ∀ x ∈ g.flatten, x.isSome = true) :
    ∀ x ∈ (shuffleOnce js g c).1.flatten, x.isSome = true := by
  apply regrid_full
  rw [(fisherYatesGo_perm js _ _ _).length_eq]
  exact tilesCollect_length g hsq hfull

lemma shuffleGo_spec (js : Nat → Nat) :
    ∀ (fuel : Nat) (g : GridT) (c : Nat) (out : GridT × Nat),
      SquareGrid g → (∀ x ∈ g.flatten, x.isSome = true) →
      shuffleGo js fuel g c = some out →
      (findAllMatches out.1).1 = [] ∧ findPossibleMatch out.1 ≠ none ∧
        (tilesCollect out.1).Perm (tilesCollect g) := by
  intro fuel
  induction fuel with
  | zero =>
    intro g c out _ _ h
    exact absurd h (by simp [shuffleGo])
  | succ fuel ih =>
    intro g c out hsq hfull h
    rw [shuffleGo] at h
    by_cases hcond : (findAllMatches (shuffleOnce js g c).1).1 ≠ [] ∨
        findPossibleMatch (shuffleOnce js g c).1 = none
    · rw [if_pos hcond] at h
      have hperm := shuffleOnce_perm js g c hsq hfull
      have h2 := ih (shuffleOnce js g c).1 (shuffleOnce js g c).2 out
        (shuffleOnce_square js g c) (shuffleOnce_full js g c hsq hfull) h
      exact ⟨h2.1, h2.2.1, h2.2.2.trans hperm⟩
    · rw [if_neg hcond] at h
      push_neg at hcond
      cases h
      exact ⟨hcond.1, hcond.2, shuffleOnce_perm js g c hsq hfull⟩

/-- C8: whenever the reshuffle operation returns (the retry loop,
bounded here by fuel, reaches its success branch), the resulting board
has zero immediate matches and at least one possible move, the tile
contents are a permutation (by Fisher-Yates swaps) of the pre-shuffle
contents, and the moves counter is untouched. -/
theorem C8_shuffle_postconditions (js : Nat → Nat) (fuel : Nat) (st : GameState)
    (c : Nat) (out : GameState × Nat)
    (hsq : SquareGrid st.grid) (hfull : ∀ x ∈ st.grid.flatten, x.isSome = true)
    (h : shuffleBoard js fuel st c = some out) :
    (findAllMatches out.1.grid).1 = [] ∧ findPossibleMatch out.1.grid ≠ none ∧
      (tilesCollect out.1.grid).Perm (tilesCollect st.grid) ∧
      out.1.moves = st.moves := by
  unfold shuffleBoard at h
  rw [Option.map_eq_some'] at h
  obtain ⟨sh, hsh, rfl⟩ := h
  have := shuffleGo_spec js fuel st.grid c sh hsq hfull hsh
  exact ⟨this.1, this.2.1, this.2.2, rfl⟩

/-- A deterministic index supply under which four reshuffle passes of
the checkerboard reach the success branch. -/
def jsC8 (n : Nat) : Nat := n * 7 + 3

set_option maxRecDepth 100000 in
/-- Witness for C8: a concrete reshuffle run that returns, with the
returned board scanning clean and the moves counter untouched. -/
theorem C8_witness :
    (findAllMatches ((shuffleBoard jsC8 4 ⟨gridC3, 7⟩ 0).getD
        (⟨[], 0⟩, 0)).1.grid).1 = [] ∧
      ((shuffleBoard jsC8 4 ⟨gridC3, 7⟩ 0).getD (⟨[], 0⟩, 0)).1.moves = 7 := by
  have h : shuffleBoard jsC8 4 ⟨gridC3, 7⟩ 0 =
      some ((shuffleBoard jsC8 4 ⟨gridC3, 7⟩ 0).getD (⟨[], 0⟩, 0)) := by decide
  have hs := C8_shuffle_postconditions jsC8 4 ⟨gridC3, 7⟩ 0 _ (by decide) (by decide) h
  exact ⟨hs.1, hs.2.2.2⟩

/-! ### C1: run length to spawn mapping

A maximal straight run on a line: `l` consecutive cells of base kind
`k` starting at `s`, not extendable to either side. -/

def IsMaxRun (L : LineCtx) (s l : Nat) (k : Kind) : Prop :=
  (∀ i < l, tTypeAt L (s + i) = some k) ∧
  (s = 0 ∨ tTypeAt L (s - 1) ≠ some k) ∧
  tTypeAt L (s + l) ≠ some k

instance (L : LineCtx) (s l : Nat) (k : Kind) : Decidable (IsMaxRun L s l k) := by
  unfold IsMaxRun; infer_instance

/-- The spawn request the scanner emits for a maximal run of length
`l ∈ {4} ∪ [5, ∞)`: the striped kind of the line for length 4, a
wrapped special for length ≥ 5, at offset `⌊l/2⌋` from the run start,
carrying the run's base kind. -/
def runSpawn (L : LineCtx) (s l : Nat) (k : Kind) : Spawn :=
  ⟨L.mkPos (s + l / 2), if l = 4 then L.special4 else SpecialKind.wrapped, some k⟩

lemma isSome_of_tTypeAt (L : LineCtx) (i : Nat) (k : Kind)
    (h : tTypeAt L i = some k) : (L.cells i).isSome = true := by
  unfold tTypeAt getTileType at h
  cases hc : L.cells i
  · rw [hc] at h
    simp at h
  · rfl

lemma isMaxRun_le_size (L : LineCtx) (hnone : ∀ i, L.size ≤ i → L.cells i = none)
    {s l : Nat} {k : Kind} (h : IsMaxRun L s l k) (hl : 1 ≤ l) :
    s + l ≤ L.size := by
  by_contra hgt
  push_neg at hgt
  have hlast := h.1 (l - 1) (by omega)
  have hge : L.size ≤ s + (l - 1) := by omega
  unfold tTypeAt at hlast
  rw [hnone _ hge] at hlast
  simp [getTileType] at hlast

lemma HExt_inside_run (L : LineCtx) {s l : Nat} {k : Kind} (h : IsMaxRun L s l k)
    {i : Nat} (h1 : s < i) (h2 : i < s + l) : HExt L i := by
  have ha : tTypeAt L i = some k := by
    have := h.1 (i - s) (by omega)
    rwa [show s + (i - s) = i by omega] at this
  have hb : tTypeAt L (i - 1) = some k := by
    have := h.1 (i - 1 - s) (by omega)
    rwa [show s + (i - 1 - s) = i - 1 by omega] at this
  exact ⟨isSome_of_tTypeAt L i k ha, isSome_of_tTypeAt L (i - 1) k hb,
    by rw [ha, hb]⟩

lemma notHExt_left (L : LineCtx) {s l : Nat} {k : Kind} (h : IsMaxRun L s l k)
    (hl : 1 ≤ l) (hs : 1 ≤ s) : ¬ HExt L s := by
  intro hext
  have ha : tTypeAt L s = some k := by
    have := h.1 0 (by omega)
    simpa using this
  rcases h.2.1 with h0 | hne
  · omega
  · exact hne (by rw [← hext.2.2]; exact ha)

lemma notHExt_right (L : LineCtx) {s l : Nat} {k : Kind} (h : IsMaxRun L s l k)
    (hl : 1 ≤ l) : ¬ HExt L (s + l) := by
  intro hext
  have hb : tTypeAt L (s + l - 1) = some k := by
    have := h.1 (l - 1) (by omega)
    rwa [show s + (l - 1) = s + l - 1 by omega] at this
  exact h.2.2 (by rw [hext.2.2, show s + l - 1 = s + l - 1 from rfl]; exact hb)

lemma HExt_ge_size_false (L : LineCtx) (hnone : ∀ i, L.size ≤ i → L.cells i = none)
    {i : Nat} (h : L.size ≤ i) : ¬ HExt L i := by
  intro hext
  have := hext.1
  rw [hnone i h] at this
  simp at this

lemma flush_notHExt (L : LineCtx) (hnone : ∀ i, L.size ≤ i → L.cells i = none)
    {col : Nat} (hc : ¬(col < L.size ∧ HExt L col)) : ¬ HExt L col := by
  intro hext
  rcases Nat.lt_or_ge col L.size with hlt | hge
  · exact hc ⟨hlt, hext⟩
  · exact HExt_ge_size_false L hnone hge hext

lemma caseC_contra (L : LineCtx) {s l ms ml col : Nat} {k : Kind}
    (hrun : IsMaxRun L s l k) (hl : 4 ≤ l)
    (h1 : ms + ml = col) (h3 : ∀ i, ms < i → i < col → HExt L i)
    (h4 : ms = 0 ∨ ¬ HExt L ms) (hml3 : 3 ≤ ml)
    (hA : ¬ col ≤ s) (hB : ¬ (ms = s ∧ col ≤ s + l))
    (hpos : s + l / 2 = ms + ml / 2)
    (hcand : tTypeAt L ms = some k) : False := by
  have hchain : ∀ j, ms ≤ j → j < col → tTypeAt L j = some k := by
    intro j hj1 hj2
    rw [chain_type_eq L h3 j hj1 hj2, hcand]
  have hms : ms = s := by
    rcases Nat.lt_trichotomy ms s with hlt | he | hgt
    · exfalso
      have hin : tTypeAt L (s - 1) = some k := hchain (s - 1) (by omega) (by omega)
      rcases hrun.2.1 with h0 | hne
      · omega
      · exact hne hin
    · exact he
    · exfalso
      have hin : tTypeAt L (ms - 1) = some k := by
        have := hrun.1 (ms - 1 - s) (by omega)
        rwa [show s + (ms - 1 - s) = ms - 1 by omega] at this
      have hext : HExt L ms :=
        ⟨isSome_of_tTypeAt L ms k hcand, isSome_of_tTypeAt L (ms - 1) k hin,
          by rw [hcand, hin]⟩
      rcases h4 with h0 | hne
      · omega
      · exact hne hext
  have hslc : s + l < col := by
    rcases Nat.lt_or_ge (s + l) col with h | h
    · exact h
    · exact absurd ⟨hms, by omega⟩ hB
  exact hrun.2.2 (hchain (s + l) (by omega) (by omega))

lemma scanGo_count (L : LineCtx) (hnone : ∀ i, L.size ≤ i → L.cells i = none)
    (hinj : Function.Injective L.mkPos)
    {s l : Nat} {k : Kind} (hrun : IsMaxRun L s l k) (hl : 4 ≤ l) :
    ∀ fuel col ms ml, ms + ml = col → 1 ≤ ml →
      (∀ i, ms < i → i < col → HExt L i) →
      (ms = 0 ∨ ¬ HExt L ms) →
      fuel + col = L.size + 1 →
      ((scanGo L fuel col ms ml).2.count (runSpawn L s l k)
        = if col ≤ s ∨ (ms = s ∧ col ≤ s + l) then 1 else 0) := by
  have hsl : s + l ≤ L.size := isMaxRun_le_size L hnone hrun (by omega)
  intro fuel
  induction fuel with
  | zero =>
    intro col ms ml h1 h2 h3 h4 h5
    rw [if_neg]
    · rfl
    · rintro (h | ⟨hx1, hx2⟩) <;> omega
  | succ fuel ih =>
    intro col ms ml h1 h2 h3 h4 h5
    rw [scanGo]
    by_cases hc : col < L.size ∧ HExt L col
    · rw [if_pos hc]
      have h3' : ∀ i, ms < i → i < col + 1 → HExt L i := by
        intro i hi1 hi2
        by_cases hic : i = col
        · rw [hic]; exact hc.2
        · exact h3 i hi1 (by omega)
      rw [ih (col + 1) ms (ml + 1) (by omega) (by omega) h3' h4 (by omega)]
      have hiff : (col + 1 ≤ s ∨ (ms = s ∧ col + 1 ≤ s + l)) ↔
          (col ≤ s ∨ (ms = s ∧ col ≤ s + l)) := by
        constructor
        · rintro (h | ⟨hx1, hx2⟩)
          · exact Or.inl (by omega)
          · exact Or.inr ⟨hx1, by omega⟩
        · rintro (h | ⟨hx1, hx2⟩)
          · rcases Nat.lt_or_ge col s with hlt | hge
            · exact Or.inl (by omega)
            · exfalso
              have hcs : col = s := by omega
              have hs1 : 1 ≤ s := by omega
              exact notHExt_left L hrun (by omega) hs1 (hcs ▸ hc.2)
          · rcases Nat.lt_or_ge col (s + l) with hlt | hge
            · exact Or.inr ⟨hx1, by omega⟩
            · exfalso
              have hcs : col = s + l := by omega
              exact notHExt_right L hrun (by omega) (hcs ▸ hc.2)
      rw [if_congr hiff rfl rfl]
    · rw [if_neg hc]
      simp only [List.count_append]
      have hnotext : ¬ HExt L col := flush_notHExt L hnone hc
      have hrest := ih (col + 1) col 1 (by omega) (by omega)
        (fun i hi1 hi2 => by omega) (Or.inr hnotext) (by omega)
      by_cases hA : col ≤ s
      · have hflush0 : (flushRun L ms ml).2.count (runSpawn L s l k) = 0 := by
          rw [List.count_eq_zero]
          intro hmem
          unfold flushRun at hmem
          by_cases h3le : 3 ≤ ml
          · rw [if_pos h3le] at hmem
            simp only at hmem
            have hposne : L.mkPos (s + l / 2) ≠ L.mkPos (ms + ml / 2) := by
              intro he
              have := hinj he
              omega
            by_cases h4' : ml = 4
            · rw [if_pos h4'] at hmem
              rw [List.mem_singleton] at hmem
              unfold runSpawn at hmem
              rw [Spawn.mk.injEq] at hmem
              exact hposne hmem.1
            · rw [if_neg h4'] at hmem
              by_cases h5' : 5 ≤ ml
              · rw [if_pos h5'] at hmem
                rw [List.mem_singleton] at hmem
                unfold runSpawn at hmem
                rw [Spawn.mk.injEq] at hmem
                exact hposne hmem.1
              · rw [if_neg h5'] at hmem
                cases hmem
          · rw [if_neg h3le] at hmem
            cases hmem
        rw [hflush0, hrest]
        have hco : (col + 1 ≤ s ∨ (col = s ∧ col + 1 ≤ s + l)) := by
          rcases Nat.lt_or_ge col s with hlt | hge
          · exact Or.inl (by omega)
          · exact Or.inr ⟨by omega, by omega⟩
        rw [if_pos hco, if_pos (Or.inl hA)]
      · by_cases hB : ms = s ∧ col ≤ s + l
        · obtain ⟨hms, hcle⟩ := hB
          have hcol : col = s + l := by
            rcases Nat.lt_or_ge col (s + l) with hlt | hge
            · exact absurd (HExt_inside_run L hrun (by omega) hlt) hnotext
            · omega
          have hml : ml = l := by omega
          subst hms
          subst hml
          have hflush1 : (flushRun L ms ml).2.count (runSpawn L ms ml k) = 1 := by
            unfold flushRun
            rw [if_pos (by omega : 3 ≤ ml)]
            simp only
            have hcand : tTypeAt L ms = some k := by
              have := hrun.1 0 (by omega)
              simpa using this
            by_cases h4' : ml = 4
            · rw [if_pos h4', hcand]
              unfold runSpawn
              rw [if_pos h4']
              simp
            · rw [if_neg h4', if_pos (by omega : 5 ≤ ml), hcand]
              unfold runSpawn
              rw [if_neg h4']
              simp
          rw [hflush1, hrest]
          rw [if_neg (by rintro (h | ⟨hx1, hx2⟩) <;> omega)]
          rw [if_pos (Or.inr ⟨rfl, hcle⟩)]
        · have hflush0 : (flushRun L ms ml).2.count (runSpawn L s l k) = 0 := by
            rw [List.count_eq_zero]
            intro hmem
            unfold flushRun at hmem
            by_cases h3le : 3 ≤ ml
            · rw [if_pos h3le] at hmem
              simp only at hmem
              have hcore : s + l / 2 = ms + ml / 2 → tTypeAt L ms = some k → False := by
                intro hpos hcand
                exact caseC_contra L hrun hl h1 h3 h4 h3le hA hB hpos hcand
              by_cases h4' : ml = 4
              · rw [if_pos h4'] at hmem
                rw [List.mem_singleton] at hmem
                unfold runSpawn at hmem
                rw [Spawn.mk.injEq] at hmem
                exact hcore (hinj hmem.1) hmem.2.2.symm
              · rw [if_neg h4'] at hmem
                by_cases h5' : 5 ≤ ml
                · rw [if_pos h5'] at hmem
                  rw [List.mem_singleton] at hmem
                  unfold runSpawn at hmem
                  rw [Spawn.mk.injEq] at hmem
                  exact hcore (hinj hmem.1) hmem.2.2.symm
                · rw [if_neg h5'] at hmem
                  cases hmem
            · rw [if_neg h3le] at hmem
              cases hmem
          rw [hflush0, hrest]
          rw [if_neg (by rintro (h | ⟨hx1, hx2⟩) <;> omega)]
          rw [if_neg (by rintro (h | hx); exact hA h; exact hB hx)]

lemma maxRun_unique (L : LineCtx) {s l s' l' : Nat} {k : Kind}
    (h : IsMaxRun L s l k) (h' : IsMaxRun L s' l' k)
    (hl : 1 ≤ l) (hl' : 1 ≤ l') {p : Nat}
    (hp1 : s ≤ p) (hp2 : p < s + l) (hp1' : s' ≤ p) (hp2' : p < s' + l') :
    s = s' ∧ l = l' := by
  have hss : s = s' := by
    rcases Nat.lt_trichotomy s s' with hlt | he | hgt
    · exfalso
      have hin : tTypeAt L (s' - 1) = some k := by
        have := h.1 (s' - 1 - s) (by omega)
        rwa [show s + (s' - 1 - s) = s' - 1 by omega] at this
      rcases h'.2.1 with h0 | hne
      · omega
      · exact hne hin
    · exact he
    · exfalso
      have hin : tTypeAt L (s - 1) = some k := by
        have := h'.1 (s - 1 - s') (by omega)
        rwa [show s' + (s - 1 - s') = s - 1 by omega] at this
      rcases h.2.1 with h0 | hne
      · omega
      · exact hne hin
  subst hss
  refine ⟨rfl, ?_⟩
  rcases Nat.lt_trichotomy l l' with hlt | he | hgt
  · exact absurd (h'.1 l (by omega)) h.2.2
  · exact he
  · exact absurd (h.1 l' (by omega)) h'.2.2

lemma scanGo_sound (L : LineCtx) (hnone : ∀ i, L.size ≤ i → L.cells i = none) :
    ∀ fuel col ms ml, ms + ml = col → 1 ≤ ml →
      (∀ i, ms < i → i < col → HExt L i) →
      (ms = 0 ∨ ¬ HExt L ms) →
      ∀ sp ∈ (scanGo L fuel col ms ml).2,
        ∃ s' l', 4 ≤ l' ∧ sp.pos = L.mkPos (s' + l' / 2) ∧
          (∀ i < l', tTypeAt L (s' + i) = tTypeAt L s') ∧
          (s' = 0 ∨ ¬ HExt L s') ∧ ¬ HExt L (s' + l') := by
  intro fuel
  induction fuel with
  | zero =>
    intro col ms ml _ _ _ _ sp hsp
    simp [scanGo] at hsp
  | succ fuel ih =>
    intro col ms ml h1 h2 h3 h4 sp hsp
    rw [scanGo] at hsp
    by_cases hc : col < L.size ∧ HExt L col
    · rw [if_pos hc] at hsp
      have h3' : ∀ i, ms < i → i < col + 1 → HExt L i := by
        intro i hi1 hi2
        by_cases hic : i = col
        · rw [hic]; exact hc.2
        · exact h3 i hi1 (by omega)
      exact ih (col + 1) ms (ml + 1) (by omega) (by omega) h3' h4 sp hsp
    · rw [if_neg hc] at hsp
      have hnotext : ¬ HExt L col := flush_notHExt L hnone hc
      rw [List.mem_append] at hsp
      rcases hsp with hf | hrest
      · unfold flushRun at hf
        by_cases h3le : 3 ≤ ml
        · rw [if_pos h3le] at hf
          simp only at hf
          have hwit : ∀ hml4 : 4 ≤ ml,
              sp = ⟨L.mkPos (ms + ml / 2), sp.stype, tTypeAt L ms⟩ →
              ∃ s' l', 4 ≤ l' ∧ sp.pos = L.mkPos (s' + l' / 2) ∧
                (∀ i < l', tTypeAt L (s' + i) = tTypeAt L s') ∧
                (s' = 0 ∨ ¬ HExt L s') ∧ ¬ HExt L (s' + l') := by
            intro hml4 hsp'
            refine ⟨ms, ml, hml4, by rw [hsp'], ?_, h4, ?_⟩
            · intro i hi
              exact chain_type_eq L h3 (ms + i) (by omega) (by omega)
            · rw [show ms + ml = col from h1]
              exact hnotext
          by_cases h4' : ml = 4
          · rw [if_pos h4'] at hf
            rw [List.mem_singleton] at hf
            exact hwit (by omega) (by rw [hf])
          · rw [if_neg h4'] at hf
            by_cases h5' : 5 ≤ ml
            · rw [if_pos h5'] at hf
              rw [List.mem_singleton] at hf
              exact hwit (by omega) (by rw [hf])
            · rw [if_neg h5'] at hf
              cases hf
        · rw [if_neg h3le] at hf
          cases hf
      · exact ih (col + 1) col 1 (by omega) (by omega) (fun i hi1 hi2 => by omega)
          (Or.inr hnotext) sp hrest

lemma scanGo_spawn_shape (L : LineCtx) :
    ∀ fuel col ms ml, ∀ sp ∈ (scanGo L fuel col ms ml).2,
      (∃ p, sp.pos = L.mkPos p) ∧
        (sp.stype = L.special4 ∨ sp.stype = SpecialKind.wrapped) := by
  intro fuel
  induction fuel with
  | zero =>
    intro col ms ml sp hsp
    simp [scanGo] at hsp
  | succ fuel ih =>
    intro col ms ml sp hsp
    rw [scanGo] at hsp
    by_cases hc : col < L.size ∧ HExt L col
    · rw [if_pos hc] at hsp
      exact ih _ _ _ sp hsp
    · rw [if_neg hc] at hsp
      rw [List.mem_append] at hsp
      rcases hsp with hf | hrest
      · unfold flushRun at hf
        by_cases h3le : 3 ≤ ml
        · rw [if_pos h3le] at hf
          simp only at hf
          by_cases h4' : ml = 4
          · rw [if_pos h4'] at hf
            rw [List.mem_singleton] at hf
            subst hf
            exact ⟨⟨ms + ml / 2, rfl⟩, Or.inl rfl⟩
          · rw [if_neg h4'] at hf
            by_cases h5' : 5 ≤ ml
            · rw [if_pos h5'] at hf
              rw [List.mem_singleton] at hf
              subst hf
              exact ⟨⟨ms + ml / 2, rfl⟩, Or.inr rfl⟩
            · rw [if_neg h5'] at hf
              cases hf
        · rw [if_neg h3le] at hf
          cases hf
      · exact ih _ _ _ sp hrest

lemma findLTShapes_stype (g : GridT) (matched : List Pos) (sp : Spawn)
    (h : sp ∈ findLTShapes g matched) : sp.stype = SpecialKind.wrapped := by
  unfold findLTShapes at h
  rcases ltFold_mem g matched ([], []) sp h with h1 | h1
  · cases h1
  · exact h1.1

lemma sum_count_single {f : Nat → Nat} {n r : Nat} (hr : r < n)
    (hz : ∀ r' < n, r' ≠ r → f r' = 0) (ho : f r = 1) :
    ((List.range n).map f).sum = 1 := by
  induction n with
  | zero => omega
  | succ n ih =>
    rw [List.range_succ, List.map_append, List.sum_append]
    simp only [List.map_cons, List.map_nil, List.sum_cons, List.sum_nil]
    by_cases hrn : r = n
    · subst hrn
      rw [ho]
      have hzero : ((List.range r).map f).sum = 0 := by
        apply List.sum_eq_zero
        intro x hx
        obtain ⟨r', hr', rfl⟩ := List.mem_map.mp hx
        rw [List.mem_range] at hr'
        exact hz r' (by omega) (by omega)
      rw [hzero]
      omega
    · rw [hz n (by omega) (by omega)]
      rw [ih (by omega) fun r' hr' hne => hz r' (by omega) hne]
      omega

lemma hLine_hnone (g : GridT) (hsq : SquareGrid g) (r : Nat) :
    ∀ i, (hLine g r).size ≤ i → (hLine g r).cells i = none := by
  intro i hi
  show getCell g r i = none
  unfold getCell
  cases hrow : g[r]? with
  | none => rfl
  | some rowL =>
    have hlen : rowL.length = g.length := hsq rowL (List.getElem?_mem hrow)
    simp only [Option.some_bind]
    rw [List.getElem?_eq_none (by exact hlen ▸ hi)]
    rfl

lemma vLine_hnone (g : GridT) (c : Nat) :
    ∀ i, (vLine g c).size ≤ i → (vLine g c).cells i = none := by
  intro i hi
  show getCell g i c = none
  unfold getCell
  rw [List.getElem?_eq_none hi]
  rfl

lemma hLine_inj (g : GridT) (r : Nat) : Function.Injective (hLine g r).mkPos := by
  intro a b h
  exact ((Pos.mk.injEq _ _ _ _).mp h).2

lemma vLine_inj (g : GridT) (c : Nat) : Function.Injective (vLine g c).mkPos := by
  intro a b h
  exact ((Pos.mk.injEq _ _ _ _).mp h).1

lemma scanLine_count_one (L : LineCtx) (hnone : ∀ i, L.size ≤ i → L.cells i = none)
    (hinj : Function.Injective L.mkPos) {s l : Nat} {k : Kind}
    (hrun : IsMaxRun L s l k) (hl : 4 ≤ l) :
    (scanLine L).2.count (runSpawn L s l k) = 1 := by
  unfold scanLine
  rw [scanGo_count L hnone hinj hrun hl L.size 1 0 1 (by omega) (by omega)
    (fun i h1 h2 => by omega) (Or.inl rfl) (by omega)]
  rw [if_pos]
  rcases Nat.eq_zero_or_pos s with h0 | hpos
  · exact Or.inr ⟨h0.symm, by omega⟩
  · exact Or.inl (by omega)

lemma run_row_lt (g : GridT) {r s l : Nat} {k : Kind}
    (hrun : IsMaxRun (hLine g r) s l k) (hl : 1 ≤ l) : r < g.length := by
  by_contra hge
  push_neg at hge
  have h0 := hrun.1 0 (by omega)
  have hnone : getCell g r (s + 0) = none := by
    unfold getCell
    rw [List.getElem?_eq_none hge]
    rfl
  have : tTypeAt (hLine g r) (s + 0) = none := by
    show getTileType (getCell g r (s + 0)) = none
    rw [hnone]
    rfl
  rw [h0] at this
  exact Option.noConfusion this

lemma count_hSpawns_one (g : GridT) (hsq : SquareGrid g) {r s l : Nat} {k : Kind}
    (hrun : IsMaxRun (hLine g r) s l k) (hl : 4 ≤ l) :
    (hSpawns g).count (runSpawn (hLine g r) s l k) = 1 := by
  have hr : r < g.length := run_row_lt g hrun (by omega)
  unfold hSpawns
  rw [List.count_flatten, List.map_map]
  apply sum_count_single hr
  · intro r' hr' hne
    simp only [Function.comp_apply]
    rw [List.count_eq_zero]
    intro hmem
    obtain ⟨⟨p, hp⟩, _⟩ := scanGo_spawn_shape (hLine g r') _ _ _ _ _ hmem
    have hp' : (⟨r, s + l / 2⟩ : Pos) = ⟨r', p⟩ := hp
    exact hne (((Pos.mk.injEq _ _ _ _).mp hp').1).symm
  · simp only [Function.comp_apply]
    exact scanLine_count_one (hLine g r) (hLine_hnone g hsq r) (hLine_inj g r) hrun hl

lemma run_col_lt (g : GridT) (hsq : SquareGrid g) {c s l : Nat} {k : Kind}
    (hrun : IsMaxRun (vLine g c) s l k) (hl : 1 ≤ l) : c < g.length := by
  by_contra hge
  push_neg at hge
  have h0 := hrun.1 0 (by omega)
  have hnone : getCell g (s + 0) c = none := by
    unfold getCell
    cases hrow : g[s + 0]? with
    | none => rfl
    | some rowL =>
      have hlen : rowL.length = g.length := hsq rowL (List.getElem?_mem hrow)
      simp only [Option.some_bind]
      rw [List.getElem?_eq_none (by omega)]
      rfl
  have : tTypeAt (vLine g c) (s + 0) = none := by
    show getTileType (getCell g (s + 0) c) = none
    rw [hnone]
    rfl
  rw [h0] at this
  exact Option.noConfusion this

lemma count_vSpawns_one (g : GridT) (hsq : SquareGrid g) {c s l : Nat} {k : Kind}
    (hrun : IsMaxRun (vLine g c) s l k) (hl : 4 ≤ l) :
    (vSpawns g).count (runSpawn (vLine g c) s l k) = 1 := by
  have hc : c < g.length := run_col_lt g hsq hrun (by omega)
  unfold vSpawns
  rw [List.count_flatten, List.map_map]
  apply sum_count_single hc
  · intro c' hc' hne
    simp only [Function.comp_apply]
    rw [List.count_eq_zero]
    intro hmem
    obtain ⟨⟨p, hp⟩, _⟩ := scanGo_spawn_shape (vLine g c') _ _ _ _ _ hmem
    have hp' : (⟨s + l / 2, c⟩ : Pos) = ⟨p, c'⟩ := hp
    exact hne (((Pos.mk.injEq _ _ _ _).mp hp').2).symm
  · simp only [Function.comp_apply]
    exact scanLine_count_one (vLine g c) (vLine_hnone g c) (vLine_inj g c) hrun hl

lemma no_spawn_in_len3_run (L : LineCtx)
    (hnone : ∀ i, L.size ≤ i → L.cells i = none)
    (hinj : Function.Injective L.mkPos) {s : Nat} {k : Kind}
    (hrun : IsMaxRun L s 3 k) :
    ∀ sp ∈ (scanLine L).2, ∀ i, i < 3 → sp.pos ≠ L.mkPos (s + i) := by
  intro sp hsp i hi3 hpe
  obtain ⟨s', l', hl4, hpos, hchain, hleft, hright⟩ :=
    scanGo_sound L hnone L.size 1 0 1 (by omega) (by omega)
      (fun j h1 h2 => by omega) (Or.inl rfl) sp hsp
  have hp : s' + l' / 2 = s + i := hinj (hpos.symm.trans hpe)
  have hpk : tTypeAt L (s + i) = some k := hrun.1 i hi3
  have hsk : tTypeAt L s' = some k := by
    have hch := hchain (l' / 2) (by omega)
    rw [hp] at hch
    rw [← hch]
    exact hpk
  have hrun' : IsMaxRun L s' l' k := by
    refine ⟨?_, ?_, ?_⟩
    · intro j hj
      rw [hchain j hj, hsk]
    · rcases hleft with h0 | hne
      · exact Or.inl h0
      · right
        intro hcontra
        exact hne ⟨isSome_of_tTypeAt L s' k hsk,
          isSome_of_tTypeAt L (s' - 1) k hcontra, by rw [hsk, hcontra]⟩
    · intro hcontra
      apply hright
      have hlast : tTypeAt L (s' + l' - 1) = some k := by
        have := hchain (l' - 1) (by omega)
        rw [show s' + (l' - 1) = s' + l' - 1 by omega] at this
        rw [this, hsk]
      exact ⟨isSome_of_tTypeAt _ _ k hcontra, isSome_of_tTypeAt _ _ k hlast,
        by rw [hcontra, hlast]⟩
  have huniq := maxRun_unique L hrun hrun' (by omega) (by omega)
    (p := s + i) (by omega) (by omega) (by omega) (by omega)
  omega

lemma count_full_of_stripedH (g : GridT) (tsp : Spawn)
    (hsty : tsp.stype = SpecialKind.stripedH)
    (h : (hSpawns g).count tsp = 1) : ((findAllMatches g).2).count tsp = 1 := by
  show (hSpawns g ++ vSpawns g ++ findLTShapes g (matchedPositions g)).count tsp = 1
  rw [List.count_append, List.count_append, h]
  have hv : (vSpawns g).count tsp = 0 := by
    rw [List.count_eq_zero]
    intro hmem
    unfold vSpawns at hmem
    rw [List.mem_flatten] at hmem
    obtain ⟨ll, hll, hm⟩ := hmem
    obtain ⟨c, _, rfl⟩ := List.mem_map.mp hll
    obtain ⟨_, hsty'⟩ := scanGo_spawn_shape (vLine g c) _ _ _ _ tsp hm
    rcases hsty' with h1 | h1 <;> rw [hsty] at h1 <;> exact SpecialKind.noConfusion h1
  have hlt : (findLTShapes g (matchedPositions g)).count tsp = 0 := by
    rw [List.count_eq_zero]
    intro hmem
    have := findLTShapes_stype g _ tsp hmem
    rw [hsty] at this
    exact SpecialKind.noConfusion this
  rw [hv, hlt]

lemma count_full_of_stripedV (g : GridT) (tsp : Spawn)
    (hsty : tsp.stype = SpecialKind.stripedV)
    (h : (vSpawns g).count tsp = 1) : ((findAllMatches g).2).count tsp = 1 := by
  show (hSpawns g ++ vSpawns g ++ findLTShapes g (matchedPositions g)).count tsp = 1
  rw [List.count_append, List.count_append, h]
  have hh : (hSpawns g).count tsp = 0 := by
    rw [List.count_eq_zero]
    intro hmem
    unfold hSpawns at hmem
    rw [List.mem_flatten] at hmem
    obtain ⟨ll, hll, hm⟩ := hmem
    obtain ⟨r, _, rfl⟩ := List.mem_map.mp hll
    obtain ⟨_, hsty'⟩ := scanGo_spawn_shape (hLine g r) _ _ _ _ tsp hm
    rcases hsty' with h1 | h1 <;> rw [hsty] at h1 <;> exact SpecialKind.noConfusion h1
  have hlt : (findLTShapes g (matchedPositions g)).count tsp = 0 := by
    rw [List.count_eq_zero]
    intro hmem
    have := findLTShapes_stype g _ tsp hmem
    rw [hsty] at this
    exact SpecialKind.noConfusion this
  rw [hh, hlt]

lemma hSpawns_no_len3 (g : GridT) (hsq : SquareGrid g) {r s : Nat} {k : Kind}
    (hrun : IsMaxRun (hLine g r) s 3 k) :
    ∀ sp ∈ hSpawns g, ∀ i, i < 3 → sp.pos ≠ (⟨r, s + i⟩ : Pos) := by
  intro sp hsp i hi hpe
  unfold hSpawns at hsp
  rw [List.mem_flatten] at hsp
  obtain ⟨ll, hll, hm⟩ := hsp
  obtain ⟨r'', _, rfl⟩ := List.mem_map.mp hll
  by_cases hre : r'' = r
  · subst hre
    exact no_spawn_in_len3_run (hLine g r'') (hLine_hnone g hsq r'')
      (hLine_inj g r'') hrun sp hm i hi hpe
  · obtain ⟨⟨p, hp⟩, _⟩ := scanGo_spawn_shape (hLine g r'') _ _ _ _ sp hm
    rw [hpe] at hp
    exact hre (((Pos.mk.injEq _ _ _ _).mp hp).1).symm

lemma vSpawns_no_len3 (g : GridT) (hsq : SquareGrid g) {c s : Nat} {k : Kind}
    (hrun : IsMaxRun (vLine g c) s 3 k) :
    ∀ sp ∈ vSpawns g, ∀ i, i < 3 → sp.pos ≠ (⟨s + i, c⟩ : Pos) := by
  intro sp hsp i hi hpe
  unfold vSpawns at hsp
  rw [List.mem_flatten] at hsp
  obtain ⟨ll, hll, hm⟩ := hsp
  obtain ⟨c'', _, rfl⟩ := List.mem_map.mp hll
  by_cases hce : c'' = c
  · subst hce
    exact no_spawn_in_len3_run (vLine g c'') (vLine_hnone g c'')
      (vLine_inj g c'') hrun sp hm i hi hpe
  · obtain ⟨⟨p, hp⟩, _⟩ := scanGo_spawn_shape (vLine g c'') _ _ _ _ sp hm
    rw [hpe] at hp
    exact hce (((Pos.mk.injEq _ _ _ _).mp hp).2).symm

/-- C1: run-length to spawn-request mapping of `findAllMatches` on a
well-formed (square) board.  A maximal horizontal run of exactly 4
yields exactly one `striped-h` (full-row-clearing) spawn request in
the returned spawn list, at the run's start plus `⌊4/2⌋ = 2`, carrying
the run's base kind; a maximal horizontal run of exactly 5 yields
exactly one area-clear (`wrapped`) spawn request among the
horizontal-scan requests at that same middle position (the L/T
detector may add separate area-clear requests of its own); a maximal
horizontal run of exactly 3 yields no spawn request anywhere in its
span.  The vertical statements mirror these with `striped-v`
(full-column-clearing) requests.  The final two conjuncts record the
orientation semantics: a `striped-h` special clears exactly its full
row and a `striped-v` special its full column. -/
theorem C1_run_length_spawn_mapping (g : GridT) (hsq : SquareGrid g)
    (r s c : Nat) (k : Kind) :
    (IsMaxRun (hLine g r) s 4 k →
      ((findAllMatches g).2.count ⟨⟨r, s + 2⟩, SpecialKind.stripedH, some k⟩ = 1)) ∧
    (IsMaxRun (hLine g r) s 5 k →
      (hSpawns g).count ⟨⟨r, s + 2⟩, SpecialKind.wrapped, some k⟩ = 1) ∧
    (IsMaxRun (hLine g r) s 3 k →
      ∀ sp ∈ hSpawns g, ∀ i, i < 3 → sp.pos ≠ (⟨r, s + i⟩ : Pos)) ∧
    (IsMaxRun (vLine g c) s 4 k →
      ((findAllMatches g).2.count ⟨⟨s + 2, c⟩, SpecialKind.stripedV, some k⟩ = 1)) ∧
    (IsMaxRun (vLine g c) s 5 k →
      (vSpawns g).count ⟨⟨s + 2, c⟩, SpecialKind.wrapped, some k⟩ = 1) ∧
    (IsMaxRun (vLine g c) s 3 k →
      ∀ sp ∈ vSpawns g, ∀ i, i < 3 → sp.pos ≠ (⟨s + i, c⟩ : Pos)) ∧
    (∀ p : Pos, (getSpecialClearPositions g p SpecialKind.stripedH).map
        (fun q => (q.row, q.col)) = (List.range g.length).map fun col => (p.row, col)) ∧
    (∀ p : Pos, (getSpecialClearPositions g p SpecialKind.stripedV).map
        (fun q => (q.row, q.col)) = (List.range g.length).map fun row => (row, p.col)) := by
  refine ⟨?_, ?_, ?_, ?_, ?_, ?_, ?_, ?_⟩
  · intro hrun
    exact count_full_of_stripedH g _ rfl (count_hSpawns_one g hsq hrun (by omega))
  · intro hrun
    exact count_hSpawns_one g hsq hrun (by omega)
  · intro hrun
    exact hSpawns_no_len3 g hsq hrun
  · intro hrun
    exact count_full_of_stripedV g _ rfl (count_vSpawns_one g hsq hrun (by omega))
  · intro hrun
    exact count_vSpawns_one g hsq hrun (by omega)
  · intro hrun
    exact vSpawns_no_len3 g hsq hrun
  · intro p
    simp only [getSpecialClearPositions]
    rw [List.map_map]
    rfl
  · intro p
    simp only [getSpecialClearPositions]
    rw [List.map_map]
    rfl

/-- Witness for C1: on the concrete board with a maximal horizontal
4-run of hearts at row 0, columns 0-3, the scanner emits exactly one
`striped-h` spawn at `(0, 2)` carrying `heart`. -/
theorem C1_witness :
    (findAllMatches gridC2).2.count
      ⟨⟨0, 0 + 2⟩, SpecialKind.stripedH, some Kind.heart⟩ = 1 :=
  (C1_run_length_spawn_mapping gridC2 (by decide) 0 0 0 Kind.heart).1 (by decide)
